import Mathlib

/-!
# AM4096 rotary-encoder driver (`AM4096.cpp`)

A shallow embedding of the driver class `AM4096` and of the collaborators it
talks to (the I2C transport and the delay service), followed by theorems about
the register transaction layer, address discovery, address re-provisioning,
configuration update, returned statuses, initialisation, the output read and
the wire format.

Conventions of the embedding

* Machine integers are natural numbers reduced explicitly: a `uint8_t` is taken
  `% 256`, a `uint16_t` `% 65536`, a `uint32_t` `% 2 ^ 32`.  `char` is unsigned
  (the ARM targets of mbed), so a received byte is a number below 256.
* Transport statuses are `int`s, embedded as `Int`; the additions of the source
  on them (`result += ...`, `status += ...`) are 32-bit two's-complement
  additions (`addInt32`).
* The transport is external.  Its behaviour is given by the replies it will
  give to the calls still to come, in call order; every call made by the driver
  consumes the next reply and is recorded, with its arguments, in a trace.
  Delays and the bus-frequency setting are recorded in the same trace.
* The macros of `AM4096.h` are parameters (`Consts`).
-/

/-- The register-map macros of `AM4096.h` used by `AM4096.cpp`. -/
structure Consts where
  AM4096_ADDR_FIRST : Nat
  AM4096_ADDR_LAST : Nat
  AM4096_CONFIG_DATA_LEN : Nat
  AM4096_EEPROM_CONFIG_DATA_ADDR : Nat
  AM4096_EEPROM_DEVICE_ID_ADDR : Nat
  AM4096_REGISTER_MEAS_DATA_ADDR : Nat
  AM4096_REGISTER_MEAS_DATA_LEN : Nat
  AM4096_REGISTER_CONFIG_DATA_ADDR : Nat

/-- Modelled from the spec: the macro `AM4096_ERROR_NONE` of `AM4096.h`; the
status encoding is "0 == success". -/
def AM4096_ERROR_NONE : Int := 0

/-- Modelled from the spec: the macro `AM4096_EEPROM_DEVICE_ID_LEN` of
`AM4096.h`; the device identifier occupies 2 words (the buffer `id_buffer` of
`init` has two elements). -/
def AM4096_EEPROM_DEVICE_ID_LEN : Nat := 2

/-- The value of `x` as a 32-bit two's-complement `int`: `x` itself when
`-2^31 <= x < 2^31`, reduced modulo `2^32` into that range otherwise. -/
def toInt32 (x : Int) : Int := (x + 2147483648) % 4294967296 - 2147483648

/-- The addition `a + b` of two `int`s, wrapping around at 32 bits. -/
def addInt32 (a b : Int) : Int := toInt32 (a + b)

/-- What the transport answers to one call: the returned status and, for a
read, the two bytes found in the receive buffer afterwards. -/
structure Reply where
  status : Int
  byte0 : Nat
  byte1 : Nat

/-- One call to an external collaborator, with its arguments. -/
inductive Event where
  | frequency (hz : Nat)
  | write (address : Nat) (data : List Nat) (repeated : Bool)
  | read (address : Nat) (length : Nat) (repeated : Bool)
  | wait_us (us : Nat)
  | wait_ms (ms : Nat)
  deriving DecidableEq

/-- The collaborators: the replies the transport gives to the calls still to
come, and the trace of the calls made so far. -/
structure World where
  replies : Nat → Reply
  trace : List Event

/-- The call `_i2c->frequency(hz)`. -/
def World.frequency (w : World) (hz : Nat) : World :=
  { w with trace := w.trace ++ [Event.frequency hz] }

/-- The call `_i2c->write(address, data, length, repeated)`; `length` is the
length of `data`. -/
def World.write (w : World) (address : Nat) (data : List Nat) (repeated : Bool) :
    Int × World :=
  ((w.replies 0).status,
   { replies := fun n => w.replies (n + 1),
     trace := w.trace ++ [Event.write address data repeated] })

/-- The call `_i2c->read(address, buffer, length, repeated)`: the status and the
contents of the two `char`s of `buffer` after the call. -/
def World.read (w : World) (address : Nat) (length : Nat) (repeated : Bool) :
    Int × Nat × Nat × World :=
  ((w.replies 0).status, (w.replies 0).byte0 % 256, (w.replies 0).byte1 % 256,
   { replies := fun n => w.replies (n + 1),
     trace := w.trace ++ [Event.read address length repeated] })

/-- The call `wait_us(us)`. -/
def World.wait_us (w : World) (us : Nat) : World :=
  { w with trace := w.trace ++ [Event.wait_us us] }

/-- The call `wait_ms(ms)`. -/
def World.wait_ms (w : World) (ms : Nat) : World :=
  { w with trace := w.trace ++ [Event.wait_ms ms] }

/-- Modelled from the spec: the bit-field `fields.Addr` of the union
`AM4096_config_data` of `AM4096.h`; the bus address is a 7-bit identifier, kept
in the low bits of configuration word 0.  Reading the field. -/
def Addr (word : Nat) : Nat := word &&& 0x7F

/-- Modelled from the spec: the bit-field `fields.Addr` of the union
`AM4096_config_data` of `AM4096.h`.  Assigning `value` to the field: the value
is cut to the 7 bits of the field, the other bits of the word are kept. -/
def setAddr (word : Nat) (value : Nat) : Nat := (word &&& 0xFF80) ||| (value &&& 0x7F)

/-- The members of class `AM4096` (the transport pointer `_i2c` is the
`World`). `_configuration` is the array `_configuration.data`, by index. -/
structure AM4096 where
  _hw_addr : Nat
  _device_id : Nat
  _initialised : Bool
  _configuration : Nat → Nat

/-- The array assignment `data[i] = v`. -/
def setWord (data : Nat → Nat) (i : Nat) (v : Nat) : Nat → Nat :=
  fun j => if j = i then v else data j

/-- The constructor `AM4096::AM4096(i2c_instance, hw_addr)`. -/
def AM4096.new (hw_addr : Nat) : AM4096 :=
  { _hw_addr := hw_addr % 256, _device_id := 0, _initialised := false,
    _configuration := fun _ => 0 }

/-- The expression `(uint16_t)((buffer[0] << 8) & 0xff00) | (uint16_t)buffer[1]`
stored into a `uint16_t`. -/
def compose (buffer0 buffer1 : Nat) : Nat :=
  ((((buffer0 <<< 8) &&& 0xff00) % 65536) ||| (buffer1 % 65536)) % 65536

/-- `AM4096::readReg(addr, reg)`: the returned status, the value stored in
`*reg`, and the world afterwards. -/
def AM4096.readReg (s : AM4096) (w : World) (addr : Nat) : Int × Nat × World :=
  let addr := addr % 256
  let result : Int := 0
  let r1 := w.write (s._hw_addr <<< 1) [addr] true
  let result := addInt32 result r1.1
  let w1 := if addr ≤ 0x1F then r1.2.wait_us 20 else r1.2
  let r2 := w1.read (s._hw_addr <<< 1) 2 false
  let result := addInt32 result r2.1
  (result, compose r2.2.1 r2.2.2.1, r2.2.2.2)

/-- `AM4096::writeReg(addr, reg)`, `reg` being the value pointed to: the
returned status and the world afterwards. -/
def AM4096.writeReg (c : Consts) (s : AM4096) (w : World) (addr : Nat) (reg : Nat) :
    Int × World :=
  let addr := addr % 256
  let flag : Bool :=
    !(decide (addr < c.AM4096_EEPROM_CONFIG_DATA_ADDR + c.AM4096_CONFIG_DATA_LEN) ||
      (decide (addr ≥ c.AM4096_REGISTER_CONFIG_DATA_ADDR) &&
       decide (addr < c.AM4096_REGISTER_CONFIG_DATA_ADDR + c.AM4096_CONFIG_DATA_LEN)))
  if flag then (1, w)
  else w.write (s._hw_addr <<< 1) [addr, (reg >>> 8) &&& 0xFF, reg &&& 0xFF] false

/-- The loop of `AM4096::findAM4096Device`, one unit of `fuel` per evaluation of
the loop condition; `none` when the fuel runs out. -/
def findLoop (c : Consts) : Nat → Int → AM4096 → World → Option (Int × AM4096 × World)
  | 0, _, _, _ => none
  | fuel + 1, found_flag, s, w =>
    if found_flag ≠ 0 ∧ s._hw_addr ≤ c.AM4096_ADDR_LAST then
      let r := s.readReg w c.AM4096_REGISTER_CONFIG_DATA_ADDR
      let s1 := { s with _configuration := setWord s._configuration 0 r.2.1 }
      if r.1 ≠ 0 then
        findLoop c fuel r.1 { s1 with _hw_addr := (s1._hw_addr + 1) % 256 } (r.2.2.wait_ms 10)
      else
        findLoop c fuel r.1 s1 r.2.2
    else some (found_flag, s, w)

/-- `AM4096::findAM4096Device()`. -/
def AM4096.findAM4096Device (c : Consts) (fuel : Nat) (s : AM4096) (w : World) :
    Option (Int × AM4096 × World) :=
  let last_hw_addr := s._hw_addr
  match findLoop c fuel 1 { s with _hw_addr := c.AM4096_ADDR_FIRST % 256 } w with
  | none => none
  | some (found_flag, s1, w1) =>
    if found_flag ≠ AM4096_ERROR_NONE then
      some (1, { s1 with _hw_addr := last_hw_addr }, w1)
    else some (0, s1, w1)

/-- `AM4096::getDeviceId()`. -/
def AM4096.getDeviceId (s : AM4096) : Nat := s._device_id

/-- `AM4096::setNewHwAddr(hw_addr)`. -/
def AM4096.setNewHwAddr (c : Consts) (s : AM4096) (w : World) (hw_addr : Nat) :
    Int × AM4096 × World :=
  let hw_addr := hw_addr % 256
  if hw_addr > 0x7F ∧ s._initialised = true then (1, s, w)
  else
    let staged := setAddr (s._configuration 0) hw_addr
    let s1 := { s with _configuration := setWord s._configuration 0 staged }
    let r := s1.writeReg c w c.AM4096_EEPROM_CONFIG_DATA_ADDR (s1._configuration 0)
    let w1 := r.2.wait_ms 20
    if r.1 ≠ 0 then
      let restored := setAddr (s1._configuration 0) s1._hw_addr
      (1, { s1 with _configuration := setWord s1._configuration 0 restored }, w1)
    else (0, { s1 with _hw_addr := hw_addr }, w1)

/-- `AM4096::getConfiguration(conf_ptr)`: the value stored in `*conf_ptr`. -/
def AM4096.getConfiguration (s : AM4096) : Nat → Nat := s._configuration

/-- One iteration of the loops of `AM4096::updateConfiguration`, on the
accumulated status and the world: the EEPROM loop when `permament`, the RAM loop
otherwise. -/
def updateStep (c : Consts) (s : AM4096) (permament : Bool) (acc : Int × World) (i : Nat) :
    Int × World :=
  if permament then
    let r := s.writeReg c acc.2 (c.AM4096_EEPROM_CONFIG_DATA_ADDR + 1) (s._configuration i)
    (addInt32 acc.1 r.1, r.2.wait_ms 20)
  else
    let r := s.writeReg c acc.2 (c.AM4096_REGISTER_CONFIG_DATA_ADDR + i) (s._configuration i)
    (addInt32 acc.1 r.1, r.2)

/-- `AM4096::updateConfiguration(conf_ptr, permament)`, `conf` being the value
pointed to. -/
def AM4096.updateConfiguration (c : Consts) (s : AM4096) (w : World) (conf : Nat → Nat)
    (permament : Bool) : Int × AM4096 × World :=
  let s1 := { s with _configuration := conf }
  let r := (List.range c.AM4096_CONFIG_DATA_LEN).foldl (updateStep c s1 permament) (0, w)
  (r.1, s1, r.2)

/-- The probe of `AM4096::init` and, when it fails, the discovery scan (the
statements of `init` up to the device-id loop); status 1 is the early
`return 1`. -/
def initLocate (c : Consts) (fuel : Nat) (s : AM4096) (w : World) :
    Option (Int × AM4096 × World) :=
  let w0 := w.frequency 100000
  let r := s.readReg w0 c.AM4096_REGISTER_CONFIG_DATA_ADDR
  let s1 := { s with _configuration := setWord s._configuration 0 r.2.1 }
  if r.1 ≠ 0 then
    match s1.findAM4096Device c fuel r.2.2 with
    | none => none
    | some (found, s2, w2) => if found ≠ 0 then some (1, s2, w2) else some (0, s2, w2)
  else some (0, s1, r.2.2)

/-- One iteration of a loop `readReg(base + i, buffer + i)`, on the buffer and
the world. -/
def readStep (s : AM4096) (base : Nat) (acc : (Nat → Nat) × World) (i : Nat) :
    (Nat → Nat) × World :=
  let r := s.readReg acc.2 (base + i)
  (setWord acc.1 i r.2.1, r.2.2)

/-- The expression `(uint32_t)(id_buffer[0] << 16) | id_buffer[1]` stored into
the `uint32_t` member `_device_id`. -/
def deviceIdOf (id0 id1 : Nat) : Nat := (((id0 <<< 16) % 2 ^ 32) ||| id1) % 2 ^ 32

/-- The statements of `AM4096::init` from the device-id loop to the end.  The
initial contents of `id_buffer` are indeterminate; both elements are
overwritten by the loop. -/
def initRead (c : Consts) (s : AM4096) (w : World) : AM4096 × World :=
  let ids := (List.range AM4096_EEPROM_DEVICE_ID_LEN).foldl
    (readStep s c.AM4096_EEPROM_DEVICE_ID_ADDR) (fun _ => 0, w)
  let s1 := { s with _device_id := deviceIdOf (ids.1 0) (ids.1 1) }
  let conf := (List.range c.AM4096_CONFIG_DATA_LEN).foldl
    (readStep s1 c.AM4096_EEPROM_CONFIG_DATA_ADDR) (s1._configuration, ids.2)
  ({ s1 with _configuration := conf.1, _initialised := true }, conf.2)

/-- `AM4096::init()`. -/
def AM4096.init (c : Consts) (fuel : Nat) (s : AM4096) (w : World) :
    Option (Int × AM4096 × World) :=
  if s._initialised = true then some (0, s, w)
  else
    match initLocate c fuel s w with
    | none => none
    | some (status, s1, w1) =>
      if status ≠ 0 then some (1, s1, w1)
      else
        let r := initRead c s1 w1
        some (0, r.1, r.2)

/-- `AM4096::readOutputDataRegisters(out_ptr)`: the returned status, the value
stored in `out_ptr->data`, and the world afterwards; `out` is the record
before the call. -/
def AM4096.readOutputDataRegisters (c : Consts) (s : AM4096) (w : World) (out : Nat → Nat) :
    Int × (Nat → Nat) × World :=
  (List.range c.AM4096_REGISTER_MEAS_DATA_LEN).foldl
    (fun (acc : Int × (Nat → Nat) × World) i =>
      let r := s.readReg acc.2.2 c.AM4096_REGISTER_MEAS_DATA_ADDR
      (r.1, setWord acc.2.1 i r.2.1, r.2.2))
    (0, out, w)

/-- A register map for concrete runs: EEPROM configuration at 0, device id at
30, measurement registers at 32, RAM configuration at 48, four configuration
words, bus addresses 0x50 to 0x5F. -/
def sampleConsts : Consts :=
  { AM4096_ADDR_FIRST := 0x50, AM4096_ADDR_LAST := 0x5F, AM4096_CONFIG_DATA_LEN := 4,
    AM4096_EEPROM_CONFIG_DATA_ADDR := 0, AM4096_EEPROM_DEVICE_ID_ADDR := 30,
    AM4096_REGISTER_MEAS_DATA_ADDR := 32, AM4096_REGISTER_MEAS_DATA_LEN := 4,
    AM4096_REGISTER_CONFIG_DATA_ADDR := 48 }

/-- A transport that answers every call with `status` and the bytes `byte0`,
`byte1`; no call made yet. -/
def constWorld (status : Int) (byte0 byte1 : Nat) : World :=
  { replies := fun _ => { status := status, byte0 := byte0, byte1 := byte1 }, trace := [] }

/-- A transport whose first replies are those of the list and every later
reply is a success with bytes 0; no call made yet. -/
def scriptWorld (script : List Reply) : World :=
  { replies := fun n => script.getD n { status := 0, byte0 := 0, byte1 := 0 }, trace := [] }

/-- The world in which the probe of `init` succeeds and the two id-register
reads deliver the bytes `AA AA` and `BB BB`. -/
def idWorld : World :=
  scriptWorld [⟨0, 0, 0⟩, ⟨0, 0, 0⟩, ⟨0, 0, 0⟩, ⟨0, 0xAA, 0xAA⟩, ⟨0, 0, 0⟩, ⟨0, 0xBB, 0xBB⟩]

/-- The handle after the successful probe of `init` in `idWorld`. -/
def idState : AM4096 :=
  { AM4096.new 0x50 with
    _configuration := setWord (AM4096.new 0x50)._configuration 0
      ((AM4096.new 0x50).readReg (idWorld.frequency 100000) 48).2.1 }

/-- The calls made by one `readReg(addr, reg)` on a handle whose working
address is `hw`: the address write with the transaction kept open, the 20 us
delay for an EEPROM address, the 2-byte read. -/
def readTrace (hw addr : Nat) : List Event :=
  Event.write (hw <<< 1) [addr % 256] true ::
    ((if addr % 256 ≤ 0x1F then [Event.wait_us 20] else []) ++
      [Event.read (hw <<< 1) 2 false])

/-- The calls made by `n` failed probes of the discovery scan at the
consecutive bus addresses `hw`, `hw + 1`, ...: each probe reads the RAM
configuration register and is followed by the 10 ms delay. -/
def failedProbes (c : Consts) : Nat → Nat → List Event
  | _, 0 => []
  | hw, n + 1 =>
    readTrace hw c.AM4096_REGISTER_CONFIG_DATA_ADDR ++ [Event.wait_ms 10] ++
      failedProbes c (hw + 1) n

/-- The status returned by the probe that consumes the replies `2 * i` and
`2 * i + 1` of the world: the statuses of its two bus phases, added to 0 as in
`readReg`. -/
def probeStatus (w : World) (i : Nat) : Int :=
  addInt32 (addInt32 0 (w.replies (2 * i)).status) (w.replies (2 * i + 1)).status

/-- The number of 2-byte bus reads in a trace; every probe (`readReg`) makes
exactly one. -/
def readCount (t : List Event) : Nat :=
  t.countP (fun e => match e with
    | Event.read _ _ _ => true
    | _ => false)

/-- A world in which the first two probes fail (no acknowledge on the address
write) and the third succeeds. -/
def thirdProbeWorld : World :=
  scriptWorld [⟨1, 0, 0⟩, ⟨0, 0, 0⟩, ⟨1, 0, 0⟩, ⟨0, 0, 0⟩, ⟨0, 0, 0⟩, ⟨0, 0x00, 0x52⟩]

/-- The frame of `writeReg(addr, reg)` on a handle whose working address is
`hw`: one 3-byte bus write, closed by a stop condition. -/
def writeEvent (hw addr reg : Nat) : Event :=
  Event.write (hw <<< 1) [addr % 256, (reg >>> 8) &&& 0xFF, reg &&& 0xFF] false

/-- An uninitialised handle built with the 8-bit address `0x80`. -/
def highAddrHandle : AM4096 := AM4096.new 0x80

/-- An initialised handle at address `0x50`. -/
def initialisedHandle : AM4096 :=
  { _hw_addr := 0x50, _device_id := 0, _initialised := true, _configuration := fun _ => 0 }

/-- The calls of `n` accepted register writes of the words `conf 0`, `conf 1`,
... to the RAM configuration registers `AM4096_REGISTER_CONFIG_DATA_ADDR + i`. -/
def ramWrites (c : Consts) (hw : Nat) (conf : Nat → Nat) (n : Nat) : List Event :=
  (List.range n).map (fun i => writeEvent hw (c.AM4096_REGISTER_CONFIG_DATA_ADDR + i) (conf i))

/-- The calls of `n` accepted register writes of the words `conf 0`, `conf 1`,
... to the register `AM4096_EEPROM_CONFIG_DATA_ADDR + 1`, each followed by the
20 ms delay. -/
def persistWrites (c : Consts) (hw : Nat) (conf : Nat → Nat) (n : Nat) : List Event :=
  (List.range n).flatMap
    (fun i => [writeEvent hw (c.AM4096_EEPROM_CONFIG_DATA_ADDR + 1) (conf i), Event.wait_ms 20])

/-- Whether a call is a bus write whose register address byte lies in the
EEPROM configuration window. -/
def isEepromWrite (c : Consts) : Event → Bool
  | Event.write _ (addr :: _) _ =>
    decide (c.AM4096_EEPROM_CONFIG_DATA_ADDR ≤ addr ∧
      addr < c.AM4096_EEPROM_CONFIG_DATA_ADDR + c.AM4096_CONFIG_DATA_LEN)
  | _ => false

/-- A configuration record with the words `0x1111, 0x2222, 0x3333, 0x4444`. -/
def sampleConfig : Nat → Nat := fun i => [0x1111, 0x2222, 0x3333, 0x4444].getD i 0

/-- The negation of `flag` in `AM4096::writeReg` for the 8-bit register address
`addr % 256`: whether the address passes the window check. -/
def passesWindowCheck (c : Consts) (addr : Nat) : Bool :=
  decide (addr % 256 < c.AM4096_EEPROM_CONFIG_DATA_ADDR + c.AM4096_CONFIG_DATA_LEN) ||
    (decide (addr % 256 ≥ c.AM4096_REGISTER_CONFIG_DATA_ADDR) &&
     decide (addr % 256 < c.AM4096_REGISTER_CONFIG_DATA_ADDR + c.AM4096_CONFIG_DATA_LEN))

/-- The statuses of the next `n` transport replies added one after the other
to `start`, as by `status += ...` on an `int`. -/
def statusSumFrom (start : Int) (w : World) : Nat → Int
  | 0 => start
  | n + 1 => addInt32 (statusSumFrom start w n) (w.replies n).status

/-- The sum of the statuses of the next `n` transport replies, accumulated from
0 in an `int`. -/
def statusSum (w : World) (n : Nat) : Int := statusSumFrom 0 w n

/-- The exact (unbounded) sum of the statuses of the next `n` transport
replies. -/
def exactStatusSum (w : World) (n : Nat) : Int :=
  ((List.range n).map (fun i => (w.replies i).status)).sum

/-- The number of nonzero statuses among the next `n` transport replies. -/
def failedCount (w : World) (n : Nat) : Nat :=
  (List.range n).countP (fun i => decide ((w.replies i).status ≠ 0))

/-- A transport whose first write reports 1, whose second reports -1 and whose
later calls succeed. -/
def cancellingWorld : World := scriptWorld [⟨1, 0, 0⟩, ⟨-1, 0, 0⟩]

/-- Two calls of `init()` in a row: the results of the first and of the second
call. -/
def initTwice (c : Consts) (fuel : Nat) (s : AM4096) (w : World) :
    Option ((Int × AM4096 × World) × (Int × AM4096 × World)) :=
  match s.init c fuel w with
  | none => none
  | some r1 =>
    match r1.2.1.init c fuel r1.2.2 with
    | none => none
    | some r2 => some (r1, r2)

/-- The 16-bit value delivered by the register read that consumes the replies
`2 * i` and `2 * i + 1` of the world: the bytes of the read phase, composed as
in `readReg`. -/
def readValue (w : World) (i : Nat) : Nat :=
  compose ((w.replies (2 * i + 1)).byte0 % 256) ((w.replies (2 * i + 1)).byte1 % 256)

/-- The calls of `n` register reads at the consecutive registers `base`,
`base + 1`, ..., in increasing order. -/
def seqReads (hw base : Nat) : Nat → List Event
  | 0 => []
  | n + 1 => seqReads hw base n ++ readTrace hw (base + n)

/-- The calls of `n` register reads, all at the register `addr`. -/
def sameReads (hw addr : Nat) : Nat → List Event
  | 0 => []
  | n + 1 => sameReads hw addr n ++ readTrace hw addr

/-- A call of a public member function of `AM4096`, with its arguments (for
`init`, the fuel of the scan loop). -/
inductive Op where
  | init (fuel : Nat)
  | setNewHwAddr (hw_addr : Nat)
  | updateConfiguration (conf : Nat → Nat) (permament : Bool)
  | getConfiguration
  | readOutputDataRegisters (out : Nat → Nat)
  | getDeviceId

/-- The effect of one call on the handle and the world, with the returned
status (0 for the getters, which return no status). -/
def Op.run (c : Consts) : Op → AM4096 × World → Option (Int × AM4096 × World)
  | Op.init fuel, (s, w) => s.init c fuel w
  | Op.setNewHwAddr hw_addr, (s, w) => some (s.setNewHwAddr c w hw_addr)
  | Op.updateConfiguration conf permament, (s, w) =>
    some (s.updateConfiguration c w conf permament)
  | Op.getConfiguration, (s, w) => some (0, s, w)
  | Op.readOutputDataRegisters out, (s, w) =>
    some ((s.readOutputDataRegisters c w out).1, s, (s.readOutputDataRegisters c w out).2.2)
  | Op.getDeviceId, (s, w) => some (0, s, w)

/-- A sequence of calls, one after the other. -/
def runOps (c : Consts) : List Op → AM4096 × World → Option (AM4096 × World)
  | [], sw => some sw
  | op :: ops, sw =>
    match op.run c sw with
    | none => none
    | some r => runOps c ops r.2

/-! ## Register transaction layer -/

set_option maxRecDepth 100000 in
theorem shl8_and_ff00 : ∀ b, b < 256 → (b <<< 8) &&& 0xff00 = b <<< 8 := by
  decide

theorem writeReg_eq (c : Consts) (s : AM4096) (w : World) (addr reg : Nat) :
    s.writeReg c w addr reg =
      if addr % 256 < c.AM4096_EEPROM_CONFIG_DATA_ADDR + c.AM4096_CONFIG_DATA_LEN ∨
          (c.AM4096_REGISTER_CONFIG_DATA_ADDR ≤ addr % 256 ∧
            addr % 256 < c.AM4096_REGISTER_CONFIG_DATA_ADDR + c.AM4096_CONFIG_DATA_LEN)
      then w.write (s._hw_addr <<< 1) [addr % 256, (reg >>> 8) &&& 0xFF, reg &&& 0xFF] false
      else (1, w) := by
  unfold AM4096.writeReg
  by_cases h1 : addr % 256 < c.AM4096_EEPROM_CONFIG_DATA_ADDR + c.AM4096_CONFIG_DATA_LEN
  · simp [h1]
  · by_cases h2 : c.AM4096_REGISTER_CONFIG_DATA_ADDR ≤ addr % 256
    · by_cases h3 : addr % 256 < c.AM4096_REGISTER_CONFIG_DATA_ADDR + c.AM4096_CONFIG_DATA_LEN
      · simp [h1, h2, h3]
      · simp [h1, h2, h3]
    · simp [h1, h2]

theorem compose_eq (b0 b1 : Nat) (h0 : b0 < 256) (h1 : b1 < 256) :
    compose b0 b1 = 256 * b0 + b1 := by
  unfold compose
  rw [shl8_and_ff00 b0 h0, Nat.shiftLeft_eq]
  have e : b0 * 2 ^ 8 = 2 ^ 8 * b0 := Nat.mul_comm _ _
  have hb : b1 < 2 ^ 8 := by omega
  rw [e, Nat.mod_eq_of_lt (by omega : 2 ^ 8 * b0 < 65536),
    Nat.mod_eq_of_lt (by omega : b1 < 65536), ← Nat.mul_add_lt_is_or hb b0]
  omega

theorem compose_eq_or (b0 b1 : Nat) (h0 : b0 < 256) (h1 : b1 < 256) :
    compose b0 b1 = (b0 <<< 8) ||| b1 := by
  rw [compose_eq b0 b1 h0 h1, Nat.shiftLeft_eq]
  have e : b0 * 2 ^ 8 = 2 ^ 8 * b0 := Nat.mul_comm _ _
  have hb : b1 < 2 ^ 8 := by omega
  rw [e, ← Nat.mul_add_lt_is_or hb b0]

theorem readReg_value (s : AM4096) (w : World) (addr : Nat) :
    (s.readReg w addr).2.1 = compose ((w.replies 1).byte0 % 256) ((w.replies 1).byte1 % 256) := by
  unfold AM4096.readReg
  by_cases h : addr % 256 ≤ 0x1F <;>
    simp [h, World.write, World.read, World.wait_us]

/-- C1: for every 8-bit register address `a`, every value `reg` and every
handle state, `writeReg` performs exactly one 3-byte transport write, addressed
to the working address, and returns that write's status when `a` lies in the
EEPROM configuration window or in the RAM configuration window; with the EEPROM
configuration window starting at register 0, for every address outside both
windows it returns 1 and makes no transport call. -/
theorem writeReg_accepted_in_windows_rejected_outside (c : Consts)
    (s : AM4096) (w : World) (a reg : Nat) (ha : a < 256) :
    (((c.AM4096_EEPROM_CONFIG_DATA_ADDR ≤ a ∧
          a < c.AM4096_EEPROM_CONFIG_DATA_ADDR + c.AM4096_CONFIG_DATA_LEN) ∨
        (c.AM4096_REGISTER_CONFIG_DATA_ADDR ≤ a ∧
          a < c.AM4096_REGISTER_CONFIG_DATA_ADDR + c.AM4096_CONFIG_DATA_LEN)) →
      (s.writeReg c w a reg).1 = (w.replies 0).status ∧
      (s.writeReg c w a reg).2.trace =
        w.trace ++ [Event.write (s._hw_addr <<< 1) [a, (reg >>> 8) &&& 0xFF, reg &&& 0xFF] false] ∧
      (s.writeReg c w a reg).2.replies = fun n => w.replies (n + 1)) ∧
    (c.AM4096_EEPROM_CONFIG_DATA_ADDR = 0 →
      ¬ ((c.AM4096_EEPROM_CONFIG_DATA_ADDR ≤ a ∧
          a < c.AM4096_EEPROM_CONFIG_DATA_ADDR + c.AM4096_CONFIG_DATA_LEN) ∨
        (c.AM4096_REGISTER_CONFIG_DATA_ADDR ≤ a ∧
          a < c.AM4096_REGISTER_CONFIG_DATA_ADDR + c.AM4096_CONFIG_DATA_LEN)) →
      s.writeReg c w a reg = (1, w)) := by
  have hm : a % 256 = a := Nat.mod_eq_of_lt ha
  rw [writeReg_eq, hm]
  constructor
  · intro hin
    rw [if_pos (by omega)]
    exact ⟨rfl, rfl, rfl⟩
  · intro hbase hout
    rw [if_neg (by omega)]

/-- Witness of C1 on the sample register map: address 2 (EEPROM window) is
written, address 40 is rejected. -/
theorem writeReg_accepted_in_windows_rejected_outside_witness :
    ((AM4096.new 0x50).writeReg sampleConsts (constWorld 0 0 0) 2 0x1234).2.trace =
        [Event.write 0xA0 [2, 0x12, 0x34] false] ∧
    (AM4096.new 0x50).writeReg sampleConsts (constWorld 0 0 0) 40 0x1234 =
        (1, constWorld 0 0 0) :=
  ⟨((writeReg_accepted_in_windows_rejected_outside sampleConsts (AM4096.new 0x50)
      (constWorld 0 0 0) 2 0x1234 (by decide)).1 (Or.inl (by decide))).2.1,
   (writeReg_accepted_in_windows_rejected_outside sampleConsts (AM4096.new 0x50)
      (constWorld 0 0 0) 40 0x1234 (by decide)).2 rfl (by decide)⟩

/-- C2: for every pair of received bytes `byte0`, `byte1` in 0..255 (the bytes
the transport leaves in the buffer of the read phase), `readReg` stores
`(byte0 << 8) | byte1 = 256 * byte0 + byte1` in its output, and the high byte of
that value is `byte0`, whatever `byte1` is. -/
theorem readReg_composes_received_bytes (s : AM4096) (w : World) (addr byte0 byte1 : Nat)
    (h0 : byte0 < 256) (h1 : byte1 < 256)
    (hr0 : (w.replies 1).byte0 = byte0) (hr1 : (w.replies 1).byte1 = byte1) :
    (s.readReg w addr).2.1 = (byte0 <<< 8) ||| byte1 ∧
    (s.readReg w addr).2.1 = 256 * byte0 + byte1 ∧
    (s.readReg w addr).2.1 / 256 = byte0 := by
  rw [readReg_value, hr0, hr1, Nat.mod_eq_of_lt h0, Nat.mod_eq_of_lt h1]
  refine ⟨compose_eq_or byte0 byte1 h0 h1, compose_eq byte0 byte1 h0 h1, ?_⟩
  rw [compose_eq byte0 byte1 h0 h1]
  omega

/-- Witness of C2: the received bytes `[0x12, 0x34]` yield `0x1234`. -/
theorem readReg_composes_received_bytes_witness :
    ((AM4096.new 0x50).readReg (constWorld 0 0x12 0x34) 48).2.1 = 0x1234 :=
  (readReg_composes_received_bytes (AM4096.new 0x50) (constWorld 0 0x12 0x34) 48 0x12 0x34
    (by decide) (by decide) rfl rfl).2.1

/-! ## Device identifier -/

theorem compose_lt (b0 b1 : Nat) : compose b0 b1 < 65536 := by
  unfold compose
  exact Nat.mod_lt _ (by decide)

theorem readReg_value_lt (s : AM4096) (w : World) (addr : Nat) :
    (s.readReg w addr).2.1 < 65536 := by
  rw [readReg_value]
  exact compose_lt _ _

theorem deviceIdOf_eq (id0 id1 : Nat) (h0 : id0 < 65536) (h1 : id1 < 65536) :
    deviceIdOf id0 id1 = id0 * 2 ^ 16 + id1 := by
  unfold deviceIdOf
  rw [Nat.shiftLeft_eq]
  have e : id0 * 2 ^ 16 = 2 ^ 16 * id0 := Nat.mul_comm _ _
  have hb : id1 < 2 ^ 16 := by omega
  rw [e, Nat.mod_eq_of_lt (by omega : 2 ^ 16 * id0 < 2 ^ 32), ← Nat.mul_add_lt_is_or hb id0]
  omega

theorem initRead_device_id (c : Consts) (s : AM4096) (w : World) :
    (initRead c s w).1._device_id =
      deviceIdOf (s.readReg w c.AM4096_EEPROM_DEVICE_ID_ADDR).2.1
        (s.readReg (s.readReg w c.AM4096_EEPROM_DEVICE_ID_ADDR).2.2
          (c.AM4096_EEPROM_DEVICE_ID_ADDR + 1)).2.1 :=
  rfl

/-- C3: when `init` on an uninitialised handle gets past the probe (or the
discovery scan), for every pair of words `id0`, `id1` delivered by the two
id-register reads (registers `AM4096_EEPROM_DEVICE_ID_ADDR` and the next one,
read in that order), `init` returns success and the device identifier returned
by `getDeviceId` afterwards is `id0 * 2^16 + id1`, for `id0 >= 0x8000` too. -/
theorem init_device_id_high_word_first (c : Consts) (fuel : Nat) (s s1 : AM4096) (w w1 : World)
    (id0 id1 : Nat) (hu : s._initialised = false)
    (hloc : initLocate c fuel s w = some (0, s1, w1))
    (hid0 : (s1.readReg w1 c.AM4096_EEPROM_DEVICE_ID_ADDR).2.1 = id0)
    (hid1 : (s1.readReg (s1.readReg w1 c.AM4096_EEPROM_DEVICE_ID_ADDR).2.2
      (c.AM4096_EEPROM_DEVICE_ID_ADDR + 1)).2.1 = id1) :
    ∃ s2 w2, s.init c fuel w = some (0, s2, w2) ∧ s2.getDeviceId = id0 * 2 ^ 16 + id1 := by
  refine ⟨(initRead c s1 w1).1, (initRead c s1 w1).2, ?_, ?_⟩
  · simp [AM4096.init, hu, hloc]
  · unfold AM4096.getDeviceId
    rw [initRead_device_id, hid0, hid1]
    apply deviceIdOf_eq
    · rw [← hid0]; exact readReg_value_lt _ _ _
    · rw [← hid1]; exact readReg_value_lt _ _ _

/-- Witness of C3: the id words `[0xAAAA, 0xBBBB]` yield the device id
`0xAAAABBBB`. -/
theorem init_device_id_high_word_first_witness :
    ∃ s2 w2, (AM4096.new 0x50).init sampleConsts 0 idWorld = some (0, s2, w2) ∧
      s2.getDeviceId = 0xAAAA * 2 ^ 16 + 0xBBBB :=
  init_device_id_high_word_first sampleConsts 0 (AM4096.new 0x50) idState
    idWorld ((AM4096.new 0x50).readReg (idWorld.frequency 100000) 48).2.2
    0xAAAA 0xBBBB rfl rfl (by decide) (by decide)

/-! ## Address discovery -/

theorem readReg_status (s : AM4096) (w : World) (addr : Nat) :
    (s.readReg w addr).1 = probeStatus w 0 := by
  unfold AM4096.readReg probeStatus
  by_cases h : addr % 256 ≤ 0x1F <;>
    simp [h, World.write, World.read, World.wait_us]

theorem probeStatus_shift (w w1 : World) (n i : Nat)
    (h : w1.replies = fun k => w.replies (k + 2 * n)) :
    probeStatus w1 i = probeStatus w (n + i) := by
  unfold probeStatus
  rw [h]
  have e1 : 2 * i + 2 * n = 2 * (n + i) := by ring
  have e2 : 2 * i + 1 + 2 * n = 2 * (n + i) + 1 := by ring
  simp only [e1, e2]

theorem readReg_trace (s : AM4096) (w : World) (addr : Nat) :
    (s.readReg w addr).2.2.trace = w.trace ++ readTrace s._hw_addr addr := by
  unfold AM4096.readReg readTrace
  by_cases h : addr % 256 ≤ 0x1F <;>
    simp [h, World.write, World.read, World.wait_us]

theorem readReg_replies (s : AM4096) (w : World) (addr : Nat) :
    (s.readReg w addr).2.2.replies = fun n => w.replies (n + 2) := by
  unfold AM4096.readReg
  by_cases h : addr % 256 ≤ 0x1F <;>
    simp [h, World.write, World.read, World.wait_us]

theorem findLoop_failed_probes (c : Consts) (k : Nat) :
    ∀ (found_flag : Int) (s : AM4096) (w : World),
      found_flag ≠ 0 → s._hw_addr + k ≤ c.AM4096_ADDR_LAST + 1 → s._hw_addr + k ≤ 255 →
      (∀ i, i < k → probeStatus w i ≠ 0) →
      ∃ (flag1 : Int) (s1 : AM4096) (w1 : World),
        flag1 ≠ 0 ∧ s1._hw_addr = s._hw_addr + k ∧ s1._device_id = s._device_id ∧
        s1._initialised = s._initialised ∧
        w1.trace = w.trace ++ failedProbes c s._hw_addr k ∧
        (w1.replies = fun n => w.replies (n + 2 * k)) ∧
        ∀ fuel, findLoop c (fuel + k) found_flag s w = findLoop c fuel flag1 s1 w1 := by
  induction k with
  | zero =>
    intro found_flag s w hflag _ _ _
    exact ⟨found_flag, s, w, hflag, rfl, rfl, rfl, by simp [failedProbes], rfl, fun _ => rfl⟩
  | succ k ih =>
    intro found_flag s w hflag hlast hbyte hfail
    have h0 : (s.readReg w c.AM4096_REGISTER_CONFIG_DATA_ADDR).1 ≠ 0 := by
      rw [readReg_status]
      have := hfail 0 (Nat.succ_pos k)
      simpa [probeStatus] using this
    have hrep := readReg_replies s w c.AM4096_REGISTER_CONFIG_DATA_ADDR
    have htr := readReg_trace s w c.AM4096_REGISTER_CONFIG_DATA_ADDR
    have hmod : (s._hw_addr + 1) % 256 = s._hw_addr + 1 := Nat.mod_eq_of_lt (by omega)
    obtain ⟨flag1, s1, w1, hf1, ha1, hd1, hi1, ht1, hr1, hrun⟩ :=
      ih (s.readReg w c.AM4096_REGISTER_CONFIG_DATA_ADDR).1
        { s with
          _configuration := setWord s._configuration 0
            (s.readReg w c.AM4096_REGISTER_CONFIG_DATA_ADDR).2.1,
          _hw_addr := (s._hw_addr + 1) % 256 }
        ((s.readReg w c.AM4096_REGISTER_CONFIG_DATA_ADDR).2.2.wait_ms 10)
        h0 (by simp only [hmod]; omega) (by simp only [hmod]; omega)
        (by
          intro i hi
          have := hfail (i + 1) (by omega)
          simp only [probeStatus, World.wait_ms, hrep] at *
          have e1 : 2 * i + 2 = 2 * (i + 1) := by ring
          have e2 : 2 * i + 1 + 2 = 2 * (i + 1) + 1 := by ring
          rw [e1, e2]
          exact this)
    refine ⟨flag1, s1, w1, hf1, ?_, hd1, hi1, ?_, ?_, ?_⟩
    · rw [ha1]; simp only [hmod]; omega
    · rw [ht1]
      simp only [World.wait_ms, htr, hmod, failedProbes, List.append_assoc]
    · rw [hr1]
      funext n
      simp only [World.wait_ms, hrep]
      congr 1
    · intro fuel
      rw [← hrun fuel]
      have hcond : found_flag ≠ 0 ∧ s._hw_addr ≤ c.AM4096_ADDR_LAST := ⟨hflag, by omega⟩
      have e : fuel + (k + 1) = (fuel + k) + 1 := by ring
      rw [e]
      conv_lhs => unfold findLoop
      simp only [hcond, and_self, if_true, h0, ne_eq, not_false_eq_true]

theorem readCount_append (t u : List Event) : readCount (t ++ u) = readCount t + readCount u := by
  simp [readCount, List.countP_append]

theorem readCount_readTrace (hw addr : Nat) : readCount (readTrace hw addr) = 1 := by
  unfold readTrace readCount
  by_cases h : addr % 256 ≤ 0x1F <;> simp [h, List.countP_cons]

theorem readCount_failedProbes (c : Consts) (k : Nat) :
    ∀ hw, readCount (failedProbes c hw k) = k := by
  induction k with
  | zero => intro hw; simp [failedProbes, readCount]
  | succ k ih =>
    intro hw
    simp only [failedProbes, readCount_append, readCount_readTrace, ih]
    simp [readCount, List.countP_cons]
    omega

/-- C4: discovery over the inclusive range
`[AM4096_ADDR_FIRST, AM4096_ADDR_LAST]`: for every `k` with
`AM4096_ADDR_FIRST + k <= AM4096_ADDR_LAST`, that address being an 8-bit bus
address, if the probe fails at the first `k`
candidate addresses and succeeds at the next, then (given fuel for the `k + 2`
evaluations of the loop condition) `findAM4096Device` returns 0, the working
address afterwards is `AM4096_ADDR_FIRST + k`, and the calls made are the `k`
failed probes at the addresses `AM4096_ADDR_FIRST ...`, each followed by the
10 ms delay, then the successful probe at `AM4096_ADDR_FIRST + k` and nothing
after it: `k + 1` probes, `2 * (k + 1)` transport calls. -/
theorem findAM4096Device_stops_at_first_success (c : Consts) (s : AM4096) (w : World)
    (k fuel : Nat) (hk : c.AM4096_ADDR_FIRST + k ≤ c.AM4096_ADDR_LAST)
    (hbyte : c.AM4096_ADDR_FIRST + k ≤ 255)
    (hfail : ∀ i, i < k → probeStatus w i ≠ 0) (hok : probeStatus w k = 0)
    (hfuel : k + 2 ≤ fuel) :
    ∃ s1 w1, s.findAM4096Device c fuel w = some (0, s1, w1) ∧
      s1._hw_addr = c.AM4096_ADDR_FIRST + k ∧
      w1.trace = w.trace ++ (failedProbes c c.AM4096_ADDR_FIRST k ++
        readTrace (c.AM4096_ADDR_FIRST + k) c.AM4096_REGISTER_CONFIG_DATA_ADDR) ∧
      readCount (failedProbes c c.AM4096_ADDR_FIRST k ++
        readTrace (c.AM4096_ADDR_FIRST + k) c.AM4096_REGISTER_CONFIG_DATA_ADDR) = k + 1 ∧
      (w1.replies = fun n => w.replies (n + 2 * (k + 1))) := by
  have hfirst : c.AM4096_ADDR_FIRST % 256 = c.AM4096_ADDR_FIRST := Nat.mod_eq_of_lt (by omega)
  obtain ⟨flag1, s1, w1, hf1, ha1, _, _, ht1, hr1, hrun⟩ :=
    findLoop_failed_probes c k 1 { s with _hw_addr := c.AM4096_ADDR_FIRST % 256 } w
      (by decide) (by simp only [hfirst]; omega) (by simp only [hfirst]; omega) hfail
  simp only [hfirst] at ha1 ht1
  obtain ⟨f, hf⟩ : ∃ f, fuel = (f + 2) + k := ⟨fuel - (k + 2), by omega⟩
  have hst : (s1.readReg w1 c.AM4096_REGISTER_CONFIG_DATA_ADDR).1 = 0 := by
    rw [readReg_status, probeStatus_shift w w1 k 0 hr1]
    exact hok
  have hcond : flag1 ≠ 0 ∧ s1._hw_addr ≤ c.AM4096_ADDR_LAST := ⟨hf1, by omega⟩
  have hloop : findLoop c fuel 1 { s with _hw_addr := c.AM4096_ADDR_FIRST % 256 } w =
      some (0, ⟨s1._hw_addr, s1._device_id, s1._initialised, setWord s1._configuration 0
                  (s1.readReg w1 c.AM4096_REGISTER_CONFIG_DATA_ADDR).2.1⟩,
        (s1.readReg w1 c.AM4096_REGISTER_CONFIG_DATA_ADDR).2.2) := by
    rw [hf, hrun (f + 2)]
    conv_lhs => unfold findLoop
    simp only [hcond, and_self, if_true, hst, ne_eq, not_true_eq_false, if_false]
    conv_lhs => unfold findLoop
    simp
  refine ⟨⟨s1._hw_addr, s1._device_id, s1._initialised, setWord s1._configuration 0
      (s1.readReg w1 c.AM4096_REGISTER_CONFIG_DATA_ADDR).2.1⟩,
    (s1.readReg w1 c.AM4096_REGISTER_CONFIG_DATA_ADDR).2.2, ?_, ?_, ?_, ?_, ?_⟩
  · unfold AM4096.findAM4096Device
    simp only [hloop]
    simp [AM4096_ERROR_NONE]
  · exact ha1
  · rw [readReg_trace, ht1, ha1, List.append_assoc]
  · rw [readCount_append, readCount_failedProbes, readCount_readTrace]
  · rw [readReg_replies, hr1]
    funext n
    show w.replies (n + 2 + 2 * k) = w.replies (n + 2 * (k + 1))
    congr 1
    ring

/-- Witness of C4 on the sample register map: two failed probes, then success
at `0x52`. -/
theorem findAM4096Device_stops_at_first_success_witness :
    ∃ s1 w1, (AM4096.new 0x10).findAM4096Device sampleConsts 4 thirdProbeWorld = some (0, s1, w1) ∧
      s1._hw_addr = 0x50 + 2 ∧
      w1.trace = thirdProbeWorld.trace ++ (failedProbes sampleConsts 0x50 2 ++
        readTrace (0x50 + 2) 48) ∧
      readCount (failedProbes sampleConsts 0x50 2 ++ readTrace (0x50 + 2) 48) = 2 + 1 ∧
      (w1.replies = fun n => thirdProbeWorld.replies (n + 2 * (2 + 1))) :=
  findAM4096Device_stops_at_first_success sampleConsts (AM4096.new 0x10) thirdProbeWorld 2 4
    (by decide) (by decide)
    (by intro i hi; interval_cases i <;> decide) (by decide) (by decide)

/-- C5: when the probe fails at every address of the non-empty range
`[AM4096_ADDR_FIRST, AM4096_ADDR_LAST]`, with `AM4096_ADDR_LAST < 0xFF`, the scan
terminates (given fuel for its `AM4096_ADDR_LAST - AM4096_ADDR_FIRST + 2`
evaluations of the loop condition) after exactly
`AM4096_ADDR_LAST - AM4096_ADDR_FIRST + 1` probes, one per address and each
followed by the 10 ms delay, `findAM4096Device` returns 1, and the working
address afterwards is the one before the scan, whatever it was. -/
theorem findAM4096Device_exhausted_restores_address (c : Consts) (s : AM4096) (w : World)
    (fuel : Nat) (hlast : c.AM4096_ADDR_LAST < 0xFF)
    (hrange : c.AM4096_ADDR_FIRST ≤ c.AM4096_ADDR_LAST)
    (hfail : ∀ i, i < c.AM4096_ADDR_LAST - c.AM4096_ADDR_FIRST + 1 → probeStatus w i ≠ 0)
    (hfuel : c.AM4096_ADDR_LAST - c.AM4096_ADDR_FIRST + 2 ≤ fuel) :
    ∃ s1 w1, s.findAM4096Device c fuel w = some (1, s1, w1) ∧
      s1._hw_addr = s._hw_addr ∧
      w1.trace = w.trace ++
        failedProbes c c.AM4096_ADDR_FIRST (c.AM4096_ADDR_LAST - c.AM4096_ADDR_FIRST + 1) ∧
      readCount (failedProbes c c.AM4096_ADDR_FIRST
        (c.AM4096_ADDR_LAST - c.AM4096_ADDR_FIRST + 1)) =
          c.AM4096_ADDR_LAST - c.AM4096_ADDR_FIRST + 1 ∧
      (w1.replies =
        fun n => w.replies (n + 2 * (c.AM4096_ADDR_LAST - c.AM4096_ADDR_FIRST + 1))) := by
  have hfirst : c.AM4096_ADDR_FIRST % 256 = c.AM4096_ADDR_FIRST := Nat.mod_eq_of_lt (by omega)
  obtain ⟨flag1, s1, w1, hf1, ha1, _, _, ht1, hr1, hrun⟩ :=
    findLoop_failed_probes c (c.AM4096_ADDR_LAST - c.AM4096_ADDR_FIRST + 1) 1
      { s with _hw_addr := c.AM4096_ADDR_FIRST % 256 } w
      (by decide) (by simp only [hfirst]; omega) (by simp only [hfirst]; omega) hfail
  simp only [hfirst] at ha1 ht1
  obtain ⟨f, hf⟩ : ∃ f, fuel = (f + 1) + (c.AM4096_ADDR_LAST - c.AM4096_ADDR_FIRST + 1) :=
    ⟨fuel - (c.AM4096_ADDR_LAST - c.AM4096_ADDR_FIRST + 2), by omega⟩
  have hcond : ¬ (flag1 ≠ 0 ∧ s1._hw_addr ≤ c.AM4096_ADDR_LAST) := by
    intro h
    omega
  have hloop : findLoop c fuel 1 { s with _hw_addr := c.AM4096_ADDR_FIRST % 256 } w =
      some (flag1, s1, w1) := by
    rw [hf, hrun (f + 1)]
    conv_lhs => unfold findLoop
    rw [if_neg hcond]
  refine ⟨{ s1 with _hw_addr := s._hw_addr }, w1, ?_, rfl, ht1, ?_, hr1⟩
  · unfold AM4096.findAM4096Device
    simp only [hloop]
    simp [AM4096_ERROR_NONE, hf1]
  · rw [readCount_failedProbes]

/-- Witness of C5 on the sample register map: no device answers at any of the
16 addresses `0x50 .. 0x5F`. -/
theorem findAM4096Device_exhausted_restores_address_witness :
    ∃ s1 w1, (AM4096.new 0x10).findAM4096Device sampleConsts 17 (constWorld 1 0 0) =
        some (1, s1, w1) ∧
      s1._hw_addr = (AM4096.new 0x10)._hw_addr ∧
      w1.trace = (constWorld 1 0 0).trace ++ failedProbes sampleConsts 0x50 (0x5F - 0x50 + 1) ∧
      readCount (failedProbes sampleConsts 0x50 (0x5F - 0x50 + 1)) = 0x5F - 0x50 + 1 ∧
      (w1.replies = fun n => (constWorld 1 0 0).replies (n + 2 * (0x5F - 0x50 + 1))) :=
  findAM4096Device_exhausted_restores_address sampleConsts (AM4096.new 0x10) (constWorld 1 0 0) 17
    (by decide) (by decide)
    (by intro i _; simp [probeStatus, constWorld, addInt32, toInt32]) (by decide)

/-! ## Address re-provisioning -/

theorem Addr_setAddr (word value : Nat) : Addr (setAddr word value) = value % 128 := by
  unfold Addr setAddr
  rw [Nat.and_distrib_right, Nat.and_assoc, Nat.and_assoc]
  have e1 : (0xFF80 : Nat) &&& 0x7F = 0 := by decide
  have e2 : (0x7F : Nat) &&& 0x7F = 0x7F := by decide
  have e3 : (0x7F : Nat) = 2 ^ 7 - 1 := by decide
  rw [e1, e2, Nat.and_zero, Nat.zero_or, e3, Nat.and_pow_two_sub_one_eq_mod]

theorem setNewHwAddr_eq (c : Consts) (s : AM4096) (w : World) (a : Nat) :
    s.setNewHwAddr c w a =
      if a % 256 > 0x7F ∧ s._initialised = true then (1, s, w)
      else if (s.writeReg c w c.AM4096_EEPROM_CONFIG_DATA_ADDR
          (setAddr (s._configuration 0) (a % 256))).1 ≠ 0 then
        (1, ⟨s._hw_addr, s._device_id, s._initialised,
            setWord (setWord s._configuration 0 (setAddr (s._configuration 0) (a % 256))) 0
              (setAddr (setAddr (s._configuration 0) (a % 256)) s._hw_addr)⟩,
          (s.writeReg c w c.AM4096_EEPROM_CONFIG_DATA_ADDR
            (setAddr (s._configuration 0) (a % 256))).2.wait_ms 20)
      else
        (0, ⟨a % 256, s._device_id, s._initialised,
            setWord s._configuration 0 (setAddr (s._configuration 0) (a % 256))⟩,
          (s.writeReg c w c.AM4096_EEPROM_CONFIG_DATA_ADDR
            (setAddr (s._configuration 0) (a % 256))).2.wait_ms 20) := by
  unfold AM4096.setNewHwAddr
  simp only [setWord, if_true]
  rfl

/-- C6 as stated fails: on the handle built with address `0x80`, a request for
address `0x10` proceeds to the EEPROM write, the write fails, the call returns 1
and the working address stays `0x80`, but the address field of the in-memory
configuration is 0 afterwards, not `0x80`. -/
theorem setNewHwAddr_rollback_counterexample :
    ¬ (0x10 > 0x7F ∧ highAddrHandle._initialised = true) ∧
    (highAddrHandle.writeReg sampleConsts (constWorld 1 0 0)
      sampleConsts.AM4096_EEPROM_CONFIG_DATA_ADDR
      (setAddr (highAddrHandle._configuration 0) 0x10)).1 ≠ 0 ∧
    (highAddrHandle.setNewHwAddr sampleConsts (constWorld 1 0 0) 0x10).1 = 1 ∧
    (highAddrHandle.setNewHwAddr sampleConsts (constWorld 1 0 0) 0x10).2.1._hw_addr = 0x80 ∧
    Addr ((highAddrHandle.setNewHwAddr sampleConsts (constWorld 1 0 0) 0x10).2.1._configuration 0)
      = 0 ∧
    Addr ((highAddrHandle.setNewHwAddr sampleConsts (constWorld 1 0 0) 0x10).2.1._configuration 0)
      ≠ highAddrHandle._hw_addr := by
  decide

/-- C6, amended: for every handle state and every requested 8-bit address on
which `setNewHwAddr` proceeds to the EEPROM write and that write fails, the call
returns 1, the working address is unchanged, and afterwards the address field of
the in-memory configuration holds the low 7 bits of the working address: the
working address itself when that is at most `0x7F`. -/
theorem setNewHwAddr_failure_rolls_back (c : Consts) (s : AM4096) (w : World) (a : Nat)
    (ha : a < 256) (hproceed : ¬ (a > 0x7F ∧ s._initialised = true))
    (hfail : (s.writeReg c w c.AM4096_EEPROM_CONFIG_DATA_ADDR
      (setAddr (s._configuration 0) a)).1 ≠ 0) :
    (s.setNewHwAddr c w a).1 = 1 ∧
    (s.setNewHwAddr c w a).2.1._hw_addr = s._hw_addr ∧
    Addr ((s.setNewHwAddr c w a).2.1._configuration 0) = s._hw_addr % 128 ∧
    (s._hw_addr ≤ 0x7F → Addr ((s.setNewHwAddr c w a).2.1._configuration 0) = s._hw_addr) := by
  have hm : a % 256 = a := Nat.mod_eq_of_lt ha
  rw [setNewHwAddr_eq, hm, if_neg hproceed, if_pos hfail]
  refine ⟨rfl, rfl, ?_, ?_⟩
  · simp only [setWord, if_true]
    exact Addr_setAddr _ _
  · intro hle
    simp only [setWord, if_true]
    rw [Addr_setAddr]
    omega

/-- Witness of C6 (amended): on the initialised handle at `0x50` a request for
`0x51` whose write fails leaves the address `0x50` in the handle and in the
address field. -/
theorem setNewHwAddr_failure_rolls_back_witness :
    (initialisedHandle.setNewHwAddr sampleConsts (constWorld 1 0 0) 0x51).1 = 1 ∧
    (initialisedHandle.setNewHwAddr sampleConsts (constWorld 1 0 0) 0x51).2.1._hw_addr =
      initialisedHandle._hw_addr ∧
    Addr ((initialisedHandle.setNewHwAddr sampleConsts (constWorld 1 0 0) 0x51).2.1._configuration 0)
      = initialisedHandle._hw_addr % 128 ∧
    (initialisedHandle._hw_addr ≤ 0x7F →
      Addr ((initialisedHandle.setNewHwAddr sampleConsts (constWorld 1 0 0)
        0x51).2.1._configuration 0) = initialisedHandle._hw_addr) :=
  setNewHwAddr_failure_rolls_back sampleConsts initialisedHandle (constWorld 1 0 0) 0x51
    (by decide) (by decide) (by decide)

theorem writeReg_eeprom_base (c : Consts) (s : AM4096) (w : World) (reg : Nat)
    (hN : 0 < c.AM4096_CONFIG_DATA_LEN) :
    s.writeReg c w c.AM4096_EEPROM_CONFIG_DATA_ADDR reg =
      ((w.replies 0).status,
        { replies := fun n => w.replies (n + 1),
          trace := w.trace ++ [writeEvent s._hw_addr c.AM4096_EEPROM_CONFIG_DATA_ADDR reg] }) := by
  have h := Nat.mod_le c.AM4096_EEPROM_CONFIG_DATA_ADDR 256
  rw [writeReg_eq, if_pos (Or.inl (by omega))]
  rfl

theorem writeReg_trace_cases (c : Consts) (s : AM4096) (w : World) (addr reg : Nat) :
    (s.writeReg c w addr reg).2.trace = w.trace ∨
    (s.writeReg c w addr reg).2.trace = w.trace ++ [writeEvent s._hw_addr addr reg] := by
  rw [writeReg_eq]
  split
  · exact Or.inr rfl
  · exact Or.inl rfl

/-- C7: `setNewHwAddr` with a requested 8-bit address `a` is rejected (returns
1 with no transport call, no delay and the handle, working address and
configuration included, unchanged) exactly when the handle is initialised and
`a > 0x7F`; on an uninitialised handle every request, `0x80` included, performs
the EEPROM write (one 3-byte bus write to the first EEPROM configuration
register, the configuration record having at least its word 0) followed by the
20 ms delay. -/
theorem setNewHwAddr_rejected_iff_initialised_and_out_of_range (c : Consts) (s : AM4096)
    (w : World) (a : Nat) (ha : a < 256) (hN : 0 < c.AM4096_CONFIG_DATA_LEN) :
    (s.setNewHwAddr c w a = (1, s, w) ↔ (s._initialised = true ∧ a > 0x7F)) ∧
    (s._initialised = false →
      (s.setNewHwAddr c w a).2.2.trace =
        w.trace ++ [writeEvent s._hw_addr c.AM4096_EEPROM_CONFIG_DATA_ADDR
          (setAddr (s._configuration 0) a), Event.wait_ms 20]) := by
  have hm : a % 256 = a := Nat.mod_eq_of_lt ha
  constructor
  · constructor
    · intro h
      by_contra hn
      have hproceed : ¬ (a > 0x7F ∧ s._initialised = true) := fun hh => hn ⟨hh.2, hh.1⟩
      have ht : (s.setNewHwAddr c w a).2.2.trace = w.trace := by rw [h]
      rw [setNewHwAddr_eq, hm, if_neg hproceed] at ht
      have hlen := congrArg List.length ht
      rcases writeReg_trace_cases c s w c.AM4096_EEPROM_CONFIG_DATA_ADDR
        (setAddr (s._configuration 0) a) with hc | hc <;>
      · split at hlen <;> simp [World.wait_ms, hc] at hlen
    · intro h
      rw [setNewHwAddr_eq, hm, if_pos ⟨h.2, h.1⟩]
  · intro hu
    have hproceed : ¬ (a > 0x7F ∧ s._initialised = true) := by simp [hu]
    rw [setNewHwAddr_eq, hm, if_neg hproceed, writeReg_eeprom_base c s w _ hN]
    split <;> simp [World.wait_ms]

/-- Witness of C7: the request `0x80` is rejected on the initialised handle and
performs the EEPROM write on a fresh one. -/
theorem setNewHwAddr_rejected_iff_initialised_and_out_of_range_witness :
    initialisedHandle.setNewHwAddr sampleConsts (constWorld 0 0 0) 0x80 =
      (1, initialisedHandle, constWorld 0 0 0) ∧
    ((AM4096.new 0x50).setNewHwAddr sampleConsts (constWorld 0 0 0) 0x80).2.2.trace =
      (constWorld 0 0 0).trace ++ [writeEvent (AM4096.new 0x50)._hw_addr
        sampleConsts.AM4096_EEPROM_CONFIG_DATA_ADDR
        (setAddr ((AM4096.new 0x50)._configuration 0) 0x80), Event.wait_ms 20] :=
  ⟨(setNewHwAddr_rejected_iff_initialised_and_out_of_range sampleConsts initialisedHandle
      (constWorld 0 0 0) 0x80 (by decide) (by decide)).1.2 ⟨rfl, by decide⟩,
   (setNewHwAddr_rejected_iff_initialised_and_out_of_range sampleConsts (AM4096.new 0x50)
      (constWorld 0 0 0) 0x80 (by decide) (by decide)).2 rfl⟩

/-- C8 as stated fails: on a fresh handle at `0x50` the request `0x80` is
accepted and its EEPROM write succeeds; the call returns 0 and the working
address becomes `0x80`, but the word written (bytes `00 00`) has address field
0, not `0x80`. -/
theorem setNewHwAddr_success_counterexample :
    ¬ (0x80 > 0x7F ∧ (AM4096.new 0x50)._initialised = true) ∧
    ((AM4096.new 0x50).setNewHwAddr sampleConsts (constWorld 0 0 0) 0x80).1 = 0 ∧
    ((AM4096.new 0x50).setNewHwAddr sampleConsts (constWorld 0 0 0) 0x80).2.1._hw_addr = 0x80 ∧
    ((AM4096.new 0x50).setNewHwAddr sampleConsts (constWorld 0 0 0) 0x80).2.2.trace =
      [Event.write 0xA0 [0, 0, 0] false, Event.wait_ms 20] ∧
    Addr (((AM4096.new 0x50).setNewHwAddr sampleConsts (constWorld 0 0 0) 0x80).2.1._configuration 0)
      ≠ 0x80 := by
  decide

/-- C8, amended: for every accepted `setNewHwAddr` call (requested 8-bit address
`a`) whose EEPROM write succeeds, exactly one register write is issued, to the
first word of the EEPROM configuration window and addressed to the old working
address, carrying configuration word 0 with its address field set to the low 7
bits of `a` (to `a` itself when `a <= 0x7F`, as in every accepted call on an
initialised handle) and its other bits as before; it is followed by the 20 ms
delay; the call returns 0 and afterwards the working address is `a`. -/
theorem setNewHwAddr_success_adopts_address (c : Consts) (s : AM4096) (w : World) (a : Nat)
    (ha : a < 256) (haccept : ¬ (a > 0x7F ∧ s._initialised = true))
    (hok : (s.writeReg c w c.AM4096_EEPROM_CONFIG_DATA_ADDR
      (setAddr (s._configuration 0) a)).1 = 0) :
    (s.setNewHwAddr c w a).1 = 0 ∧
    (s.setNewHwAddr c w a).2.1._hw_addr = a ∧
    (s.setNewHwAddr c w a).2.2.trace =
      w.trace ++ [writeEvent s._hw_addr c.AM4096_EEPROM_CONFIG_DATA_ADDR
        ((s.setNewHwAddr c w a).2.1._configuration 0), Event.wait_ms 20] ∧
    Addr ((s.setNewHwAddr c w a).2.1._configuration 0) = a % 128 ∧
    (a ≤ 0x7F → Addr ((s.setNewHwAddr c w a).2.1._configuration 0) = a) ∧
    (s.setNewHwAddr c w a).2.1._configuration 0 &&& 0xFF80 = s._configuration 0 &&& 0xFF80 := by
  have hm : a % 256 = a := Nat.mod_eq_of_lt ha
  have hacc : (s.writeReg c w c.AM4096_EEPROM_CONFIG_DATA_ADDR
      (setAddr (s._configuration 0) a)).2.trace =
      w.trace ++ [writeEvent s._hw_addr c.AM4096_EEPROM_CONFIG_DATA_ADDR
        (setAddr (s._configuration 0) a)] := by
    rw [writeReg_eq] at hok ⊢
    by_cases hwin : c.AM4096_EEPROM_CONFIG_DATA_ADDR % 256 <
          c.AM4096_EEPROM_CONFIG_DATA_ADDR + c.AM4096_CONFIG_DATA_LEN ∨
        (c.AM4096_REGISTER_CONFIG_DATA_ADDR ≤ c.AM4096_EEPROM_CONFIG_DATA_ADDR % 256 ∧
          c.AM4096_EEPROM_CONFIG_DATA_ADDR % 256 <
            c.AM4096_REGISTER_CONFIG_DATA_ADDR + c.AM4096_CONFIG_DATA_LEN)
    · rw [if_pos hwin]
      rfl
    · rw [if_neg hwin] at hok
      exact absurd hok (by simp)
  rw [setNewHwAddr_eq, hm, if_neg haccept, if_neg (by simpa using hok)]
  simp only [setWord, if_true, World.wait_ms, hacc, List.append_assoc, List.singleton_append]
  refine ⟨trivial, trivial, trivial, Addr_setAddr _ _, ?_, ?_⟩
  · intro hle
    rw [Addr_setAddr]
    omega
  · unfold setAddr
    rw [Nat.and_distrib_right, Nat.and_assoc, Nat.and_assoc]
    have e1 : (0x7F : Nat) &&& 0xFF80 = 0 := by decide
    have e2 : (0xFF80 : Nat) &&& 0xFF80 = 0xFF80 := by decide
    rw [e1, e2, Nat.and_zero, Nat.or_zero]

/-- Witness of C8 (amended): the initialised handle at `0x50` moves to `0x51`. -/
theorem setNewHwAddr_success_adopts_address_witness :
    (initialisedHandle.setNewHwAddr sampleConsts (constWorld 0 0 0) 0x51).1 = 0 ∧
    (initialisedHandle.setNewHwAddr sampleConsts (constWorld 0 0 0) 0x51).2.1._hw_addr = 0x51 :=
  ⟨(setNewHwAddr_success_adopts_address sampleConsts initialisedHandle (constWorld 0 0 0) 0x51
      (by decide) (by decide) (by decide)).1,
   (setNewHwAddr_success_adopts_address sampleConsts initialisedHandle (constWorld 0 0 0) 0x51
      (by decide) (by decide) (by decide)).2.1⟩

/-! ## Configuration update -/

theorem updateStep_ram_trace (c : Consts) (s : AM4096)
    (hfit : c.AM4096_REGISTER_CONFIG_DATA_ADDR + c.AM4096_CONFIG_DATA_LEN ≤ 256) :
    ∀ n, n ≤ c.AM4096_CONFIG_DATA_LEN → ∀ acc : Int × World,
      ((List.range n).foldl (updateStep c s false) acc).2.trace =
        acc.2.trace ++ ramWrites c s._hw_addr s._configuration n := by
  intro n
  induction n with
  | zero => intro _ acc; simp [ramWrites]
  | succ n ih =>
    intro hn acc
    have hmod : (c.AM4096_REGISTER_CONFIG_DATA_ADDR + n) % 256 =
        c.AM4096_REGISTER_CONFIG_DATA_ADDR + n := Nat.mod_eq_of_lt (by omega)
    rw [List.range_succ, List.foldl_append, List.foldl_cons, List.foldl_nil]
    have hstep : ∀ a : Int × World, (updateStep c s false a n).2.trace =
        a.2.trace ++ [writeEvent s._hw_addr (c.AM4096_REGISTER_CONFIG_DATA_ADDR + n)
          (s._configuration n)] := by
      intro a
      simp only [updateStep, Bool.false_eq_true, if_false]
      rw [writeReg_eq, hmod, if_pos (Or.inr ⟨by omega, by omega⟩)]
      simp [World.write, writeEvent, hmod]
    rw [hstep, ih (by omega)]
    simp [ramWrites, List.range_succ]

theorem updateStep_persist_trace (c : Consts) (s : AM4096)
    (hN : 2 ≤ c.AM4096_CONFIG_DATA_LEN) :
    ∀ n, ∀ acc : Int × World,
      ((List.range n).foldl (updateStep c s true) acc).2.trace =
        acc.2.trace ++ persistWrites c s._hw_addr s._configuration n := by
  intro n
  induction n with
  | zero => intro acc; simp [persistWrites]
  | succ n ih =>
    intro acc
    have hle := Nat.mod_le (c.AM4096_EEPROM_CONFIG_DATA_ADDR + 1) 256
    rw [List.range_succ, List.foldl_append, List.foldl_cons, List.foldl_nil]
    have hstep : ∀ a : Int × World, (updateStep c s true a n).2.trace =
        a.2.trace ++ [writeEvent s._hw_addr (c.AM4096_EEPROM_CONFIG_DATA_ADDR + 1)
          (s._configuration n), Event.wait_ms 20] := by
      intro a
      simp only [updateStep, if_true]
      rw [writeReg_eq, if_pos (Or.inl (by omega))]
      simp [World.wait_ms, World.write, writeEvent]
    rw [hstep, ih]
    simp [persistWrites, List.range_succ, List.flatMap_append]

theorem persistWrites_length (c : Consts) (hw : Nat) (conf : Nat → Nat) (n : Nat) :
    (persistWrites c hw conf n).length = 2 * n := by
  induction n with
  | zero => simp [persistWrites]
  | succ n ih =>
    unfold persistWrites at ih ⊢
    rw [List.range_succ, List.flatMap_append, List.length_append, ih]
    simp
    omega

theorem ramWrites_mem (c : Consts) (hw : Nat) (conf : Nat → Nat) (n : Nat) (e : Event)
    (he : e ∈ ramWrites c hw conf n) :
    ∃ i, i < n ∧ e = writeEvent hw (c.AM4096_REGISTER_CONFIG_DATA_ADDR + i) (conf i) := by
  unfold ramWrites at he
  rw [List.mem_map] at he
  obtain ⟨i, hi, rfl⟩ := he
  exact ⟨i, List.mem_range.mp hi, rfl⟩

/-- C9: for every configuration and every transport behaviour,
`updateConfiguration` with `permament = false` makes exactly the register writes
of the words to the RAM configuration registers, none of them to an address of
the EEPROM configuration window and no 20 ms delay (the RAM window lying above
the EEPROM window, within the 8-bit register addresses); with
`permament = true` (and at least two configuration words) the calls are a
register write followed by one 20 ms delay, repeated
`AM4096_CONFIG_DATA_LEN` times. -/
theorem updateConfiguration_persist_selects_eeprom_writes_and_delays (c : Consts) (s : AM4096)
    (w : World) (conf : Nat → Nat) :
    (c.AM4096_EEPROM_CONFIG_DATA_ADDR + c.AM4096_CONFIG_DATA_LEN ≤
        c.AM4096_REGISTER_CONFIG_DATA_ADDR →
      c.AM4096_REGISTER_CONFIG_DATA_ADDR + c.AM4096_CONFIG_DATA_LEN ≤ 256 →
      (s.updateConfiguration c w conf false).2.2.trace =
          w.trace ++ ramWrites c s._hw_addr conf c.AM4096_CONFIG_DATA_LEN ∧
        ∀ e, e ∈ ramWrites c s._hw_addr conf c.AM4096_CONFIG_DATA_LEN →
          isEepromWrite c e = false ∧ e ≠ Event.wait_ms 20) ∧
    (2 ≤ c.AM4096_CONFIG_DATA_LEN →
      (s.updateConfiguration c w conf true).2.2.trace =
          w.trace ++ persistWrites c s._hw_addr conf c.AM4096_CONFIG_DATA_LEN ∧
        (persistWrites c s._hw_addr conf c.AM4096_CONFIG_DATA_LEN).length =
          2 * c.AM4096_CONFIG_DATA_LEN) := by
  constructor
  · intro hsep hfit
    constructor
    · unfold AM4096.updateConfiguration
      exact updateStep_ram_trace c _ hfit _ (Nat.le_refl _) (0, w)
    · intro e he
      obtain ⟨i, hi, rfl⟩ := ramWrites_mem c _ _ _ e he
      have hmod : (c.AM4096_REGISTER_CONFIG_DATA_ADDR + i) % 256 =
          c.AM4096_REGISTER_CONFIG_DATA_ADDR + i := Nat.mod_eq_of_lt (by omega)
      constructor
      · simp only [writeEvent, isEepromWrite, hmod, decide_eq_false_iff_not]
        omega
      · simp [writeEvent]
  · intro hN
    constructor
    · unfold AM4096.updateConfiguration
      exact updateStep_persist_trace c _ hN _ (0, w)
    · exact persistWrites_length c _ _ _

/-- Witness of C9 on the sample register map. -/
theorem updateConfiguration_persist_selects_eeprom_writes_and_delays_witness :
    ((AM4096.new 0x50).updateConfiguration sampleConsts (constWorld 0 0 0) sampleConfig
        false).2.2.trace =
      (constWorld 0 0 0).trace ++ ramWrites sampleConsts (AM4096.new 0x50)._hw_addr sampleConfig
        sampleConsts.AM4096_CONFIG_DATA_LEN ∧
    ((AM4096.new 0x50).updateConfiguration sampleConsts (constWorld 0 0 0) sampleConfig
        true).2.2.trace =
      (constWorld 0 0 0).trace ++ persistWrites sampleConsts (AM4096.new 0x50)._hw_addr sampleConfig
        sampleConsts.AM4096_CONFIG_DATA_LEN :=
  ⟨((updateConfiguration_persist_selects_eeprom_writes_and_delays sampleConsts (AM4096.new 0x50)
      (constWorld 0 0 0) sampleConfig).1 (by decide) (by decide)).1,
   ((updateConfiguration_persist_selects_eeprom_writes_and_delays sampleConsts (AM4096.new 0x50)
      (constWorld 0 0 0) sampleConfig).2 (by decide)).1⟩

/-- C10, the code at a failing input: with `permament = true`, four
configuration words and a transport on which every write succeeds, all four
register writes carry the register address `AM4096_EEPROM_CONFIG_DATA_ADDR + 1`
(here 1); the words `0x1111 .. 0x4444` are sent to that one register, none to
the registers 0, 2 and 3, and the call returns 0. -/
theorem updateConfiguration_persist_writes_one_register :
    ((AM4096.new 0x50).updateConfiguration sampleConsts (constWorld 0 0 0) sampleConfig
        true).2.2.trace =
      [Event.write 0xA0 [1, 0x11, 0x11] false, Event.wait_ms 20,
       Event.write 0xA0 [1, 0x22, 0x22] false, Event.wait_ms 20,
       Event.write 0xA0 [1, 0x33, 0x33] false, Event.wait_ms 20,
       Event.write 0xA0 [1, 0x44, 0x44] false, Event.wait_ms 20] ∧
    ((AM4096.new 0x50).updateConfiguration sampleConsts (constWorld 0 0 0) sampleConfig
        true).1 = 0 ∧
    ((AM4096.new 0x50).updateConfiguration sampleConsts (constWorld 0 0 0) sampleConfig
        false).2.2.trace =
      [Event.write 0xA0 [48, 0x11, 0x11] false, Event.write 0xA0 [49, 0x22, 0x22] false,
       Event.write 0xA0 [50, 0x33, 0x33] false, Event.write 0xA0 [51, 0x44, 0x44] false] := by
  decide

/-! ## Returned statuses -/

theorem writeReg_of_passes (c : Consts) (s : AM4096) (w : World) (addr reg : Nat)
    (h : passesWindowCheck c addr = true) :
    s.writeReg c w addr reg =
      w.write (s._hw_addr <<< 1) [addr % 256, (reg >>> 8) &&& 0xFF, reg &&& 0xFF] false := by
  rw [writeReg_eq]
  simp only [passesWindowCheck, Bool.or_eq_true, Bool.and_eq_true, decide_eq_true_eq] at h
  rw [if_pos h]

theorem passes_ram (c : Consts) (i : Nat) (hR : c.AM4096_REGISTER_CONFIG_DATA_ADDR < 256)
    (hi : i < c.AM4096_CONFIG_DATA_LEN) :
    passesWindowCheck c (c.AM4096_REGISTER_CONFIG_DATA_ADDR + i) = true := by
  simp only [passesWindowCheck, Bool.or_eq_true, Bool.and_eq_true, decide_eq_true_eq]
  omega

theorem passes_eeprom_succ (c : Consts) (hN : 2 ≤ c.AM4096_CONFIG_DATA_LEN) :
    passesWindowCheck c (c.AM4096_EEPROM_CONFIG_DATA_ADDR + 1) = true := by
  simp only [passesWindowCheck, Bool.or_eq_true, Bool.and_eq_true, decide_eq_true_eq]
  omega

theorem passes_eeprom_base (c : Consts) (hN : 1 ≤ c.AM4096_CONFIG_DATA_LEN) :
    passesWindowCheck c c.AM4096_EEPROM_CONFIG_DATA_ADDR = true := by
  simp only [passesWindowCheck, Bool.or_eq_true, Bool.and_eq_true, decide_eq_true_eq]
  omega

theorem toInt32_of_range (x : Int) (h1 : -2147483648 ≤ x) (h2 : x < 2147483648) :
    toInt32 x = x := by
  unfold toInt32
  omega

theorem toInt32_toInt32_add (a b : Int) : toInt32 (toInt32 a + b) = toInt32 (a + b) := by
  unfold toInt32
  omega

theorem updateStep_fold_status (c : Consts) (s : AM4096) (p : Bool) (n : Nat)
    (hpass : ∀ i, i < n → passesWindowCheck c
      (if p then c.AM4096_EEPROM_CONFIG_DATA_ADDR + 1
        else c.AM4096_REGISTER_CONFIG_DATA_ADDR + i) = true) :
    ∀ acc : Int × World,
      ((List.range n).foldl (updateStep c s p) acc).1 = statusSumFrom acc.1 acc.2 n ∧
      ((List.range n).foldl (updateStep c s p) acc).2.replies =
        fun k => acc.2.replies (k + n) := by
  induction n with
  | zero => intro acc; simp [statusSumFrom]
  | succ n ih =>
    intro acc
    obtain ⟨h1, h2⟩ := ih (fun i hi => hpass i (by omega)) acc
    have hp := hpass n (by omega)
    rw [List.range_succ, List.foldl_append, List.foldl_cons, List.foldl_nil]
    cases p with
    | true =>
      simp only [if_true] at hp
      simp only [updateStep, if_true, writeReg_of_passes c s _ _ _ hp, World.write,
        World.wait_ms, h1, h2]
      refine ⟨by simp [statusSumFrom], ?_⟩
      funext k
      simp only [Nat.add_assoc, Nat.add_comm 1 n]
    | false =>
      simp only [Bool.false_eq_true, if_false] at hp
      simp only [updateStep, Bool.false_eq_true, if_false, writeReg_of_passes c s _ _ _ hp,
        World.write, h1, h2]
      refine ⟨by simp [statusSumFrom], ?_⟩
      funext k
      simp only [Nat.add_assoc, Nat.add_comm 1 n]

theorem exactStatusSum_succ (w : World) (n : Nat) :
    exactStatusSum w (n + 1) = exactStatusSum w n + (w.replies n).status := by
  simp [exactStatusSum, List.range_succ]

theorem exactStatusSum_nonneg (w : World) (n : Nat)
    (h : ∀ i, i < n → 0 ≤ (w.replies i).status) : 0 ≤ exactStatusSum w n := by
  induction n with
  | zero => simp [exactStatusSum]
  | succ n ih =>
    rw [exactStatusSum_succ]
    have := ih (fun i hi => h i (by omega))
    have := h n (by omega)
    omega

theorem exactStatusSum_ne_zero_iff (w : World) (n : Nat)
    (h : ∀ i, i < n → 0 ≤ (w.replies i).status) :
    exactStatusSum w n ≠ 0 ↔ ∃ i, i < n ∧ (w.replies i).status ≠ 0 := by
  induction n with
  | zero => simp [exactStatusSum]
  | succ n ih =>
    rw [exactStatusSum_succ]
    have hs := exactStatusSum_nonneg w n (fun i hi => h i (by omega))
    have hn := h n (by omega)
    have ih1 := ih (fun i hi => h i (by omega))
    constructor
    · intro hne
      by_cases hz : exactStatusSum w n = 0
      · exact ⟨n, by omega, by omega⟩
      · obtain ⟨i, hi, hi2⟩ := ih1.mp hz
        exact ⟨i, by omega, hi2⟩
    · rintro ⟨i, hi, hi2⟩
      by_cases hin : i = n
      · subst hin
        omega
      · have : exactStatusSum w n ≠ 0 := ih1.mpr ⟨i, by omega, hi2⟩
        omega

theorem exactStatusSum_eq_failedCount (w : World) (n : Nat)
    (h : ∀ i, i < n → (w.replies i).status = 0 ∨ (w.replies i).status = 1) :
    exactStatusSum w n = (failedCount w n : Int) := by
  induction n with
  | zero => simp [exactStatusSum, failedCount]
  | succ n ih =>
    rw [exactStatusSum_succ, ih (fun i hi => h i (by omega))]
    unfold failedCount
    rw [List.range_succ, List.countP_append]
    rcases h n (by omega) with h0 | h1
    · simp [h0]
    · simp [h1]

theorem failedCount_le (w : World) (n : Nat) : failedCount w n ≤ n := by
  unfold failedCount
  have := List.countP_le_length (fun i => decide ((w.replies i).status ≠ 0))
    (l := List.range n)
  simpa using this

theorem statusSum_eq_toInt32 (w : World) (n : Nat) :
    statusSum w n = toInt32 (exactStatusSum w n) := by
  induction n with
  | zero => simp [statusSum, statusSumFrom, exactStatusSum, toInt32]
  | succ n ih =>
    unfold statusSum at ih ⊢
    rw [exactStatusSum_succ]
    simp only [statusSumFrom, addInt32, ih, toInt32_toInt32_add]

theorem statusSum_eq_exact (w : World) (n : Nat)
    (h : ∀ i, i < n → 0 ≤ (w.replies i).status) (hb : exactStatusSum w n < 2147483648) :
    statusSum w n = exactStatusSum w n := by
  rw [statusSum_eq_toInt32]
  have := exactStatusSum_nonneg w n h
  exact toInt32_of_range _ (by omega) hb

/-- C11 as stated fails: with `permament = false` on the sample register map, a
transport whose first word write reports 1 and whose second reports -1 (both
nonzero, so both failed) makes `updateConfiguration` return 0; so does a
transport on which all four word writes report `2^30`, the `int` sum wrapping
around to 0. -/
theorem updateConfiguration_status_counterexample :
    (cancellingWorld.replies 0).status = 1 ∧ (cancellingWorld.replies 1).status = -1 ∧
    ((AM4096.new 0x50).writeReg sampleConsts cancellingWorld 48 (sampleConfig 0)).1 ≠ 0 ∧
    ((AM4096.new 0x50).updateConfiguration sampleConsts cancellingWorld sampleConfig
      false).2.2.trace =
      [Event.write 0xA0 [48, 0x11, 0x11] false, Event.write 0xA0 [49, 0x22, 0x22] false,
       Event.write 0xA0 [50, 0x33, 0x33] false, Event.write 0xA0 [51, 0x44, 0x44] false] ∧
    ((AM4096.new 0x50).updateConfiguration sampleConsts cancellingWorld sampleConfig false).1
      = 0 ∧
    ((AM4096.new 0x50).updateConfiguration sampleConsts (constWorld 1073741824 0 0) sampleConfig
      false).1 = 0 := by
  decide

/-- C11, amended: for every configuration, either value of `permament` and every
transport behaviour (the RAM base being an 8-bit register address when
`permament = false`, the record having at least two words when
`permament = true`), the `AM4096_CONFIG_DATA_LEN` word writes are the next
transport calls and the status returned by `updateConfiguration` is the sum of
their statuses accumulated in an `int`, that is their exact sum reduced to 32
bits; when none of these statuses is negative and their exact sum is below
`2^31`, it is that exact sum and is nonzero if and only if at least one word
write failed; when every status is 0 or 1 (and there are fewer than `2^31`
words), it is the number of failed words, nonzero if and only if at least one
word write failed. -/
theorem updateConfiguration_status_is_sum (c : Consts) (s : AM4096) (w : World)
    (conf : Nat → Nat) (p : Bool)
    (hN : p = true → 2 ≤ c.AM4096_CONFIG_DATA_LEN)
    (hR : p = false → c.AM4096_REGISTER_CONFIG_DATA_ADDR < 256) :
    (s.updateConfiguration c w conf p).1 = statusSum w c.AM4096_CONFIG_DATA_LEN ∧
    (s.updateConfiguration c w conf p).1 =
      toInt32 (exactStatusSum w c.AM4096_CONFIG_DATA_LEN) ∧
    ((s.updateConfiguration c w conf p).2.2.replies =
      fun k => w.replies (k + c.AM4096_CONFIG_DATA_LEN)) ∧
    ((∀ i, i < c.AM4096_CONFIG_DATA_LEN → 0 ≤ (w.replies i).status) →
      exactStatusSum w c.AM4096_CONFIG_DATA_LEN < 2147483648 →
      (s.updateConfiguration c w conf p).1 = exactStatusSum w c.AM4096_CONFIG_DATA_LEN ∧
      ((s.updateConfiguration c w conf p).1 ≠ 0 ↔
        ∃ i, i < c.AM4096_CONFIG_DATA_LEN ∧ (w.replies i).status ≠ 0)) ∧
    ((∀ i, i < c.AM4096_CONFIG_DATA_LEN →
        (w.replies i).status = 0 ∨ (w.replies i).status = 1) →
      c.AM4096_CONFIG_DATA_LEN < 2147483648 →
      (s.updateConfiguration c w conf p).1 = (failedCount w c.AM4096_CONFIG_DATA_LEN : Int) ∧
      ((s.updateConfiguration c w conf p).1 ≠ 0 ↔
        ∃ i, i < c.AM4096_CONFIG_DATA_LEN ∧ (w.replies i).status ≠ 0)) := by
  have hpass : ∀ i, i < c.AM4096_CONFIG_DATA_LEN → passesWindowCheck c
      (if p then c.AM4096_EEPROM_CONFIG_DATA_ADDR + 1
        else c.AM4096_REGISTER_CONFIG_DATA_ADDR + i) = true := by
    intro i hi
    cases p with
    | true => simpa using passes_eeprom_succ c (hN rfl)
    | false => simpa using passes_ram c i (hR rfl) hi
  obtain ⟨h1, h2⟩ := updateStep_fold_status c { s with _configuration := conf } p
    c.AM4096_CONFIG_DATA_LEN hpass (0, w)
  have hst : (s.updateConfiguration c w conf p).1 = statusSum w c.AM4096_CONFIG_DATA_LEN := by
    unfold AM4096.updateConfiguration statusSum
    exact h1
  have hnn01 : (∀ i, i < c.AM4096_CONFIG_DATA_LEN →
      (w.replies i).status = 0 ∨ (w.replies i).status = 1) →
      ∀ i, i < c.AM4096_CONFIG_DATA_LEN → 0 ≤ (w.replies i).status := by
    intro h01 i hi
    rcases h01 i hi with h | h <;> omega
  refine ⟨hst, ?_, ?_, ?_, ?_⟩
  · rw [hst, statusSum_eq_toInt32]
  · unfold AM4096.updateConfiguration
    simpa using h2
  · intro hnn hb
    rw [hst, statusSum_eq_exact w _ hnn hb]
    exact ⟨rfl, exactStatusSum_ne_zero_iff w _ hnn⟩
  · intro h01 hb
    have hnn := hnn01 h01
    have hfc := exactStatusSum_eq_failedCount w _ h01
    have hle := failedCount_le w c.AM4096_CONFIG_DATA_LEN
    have hb2 : exactStatusSum w c.AM4096_CONFIG_DATA_LEN < 2147483648 := by
      rw [hfc]
      omega
    rw [hst, statusSum_eq_exact w _ hnn hb2]
    refine ⟨hfc, exactStatusSum_ne_zero_iff w _ hnn⟩

/-- Witness of C11 (amended) on the sample register map, every write failing
with status 1. -/
theorem updateConfiguration_status_is_sum_witness :
    ((AM4096.new 0x50).updateConfiguration sampleConsts (constWorld 1 0 0) sampleConfig true).1 =
      statusSum (constWorld 1 0 0) sampleConsts.AM4096_CONFIG_DATA_LEN :=
  (updateConfiguration_status_is_sum sampleConsts (AM4096.new 0x50) (constWorld 1 0 0)
    sampleConfig true (fun _ => by decide) (fun h => absurd h (by decide))).1

/-! ## Configuration snapshot and initialisation -/

/-- C12: for every new configuration, either value of `permament` and every
transport behaviour, after `updateConfiguration` the in-memory configuration
record is the new configuration, so `getConfiguration` returns it; the working
address, the device id and the initialised flag are unchanged. -/
theorem updateConfiguration_replaces_configuration (c : Consts) (s : AM4096) (w : World)
    (conf : Nat → Nat) (p : Bool) :
    (s.updateConfiguration c w conf p).2.1.getConfiguration = conf ∧
    (∀ i, (s.updateConfiguration c w conf p).2.1._configuration i = conf i) ∧
    (s.updateConfiguration c w conf p).2.1._hw_addr = s._hw_addr ∧
    (s.updateConfiguration c w conf p).2.1._device_id = s._device_id ∧
    (s.updateConfiguration c w conf p).2.1._initialised = s._initialised :=
  ⟨rfl, fun _ => rfl, rfl, rfl, rfl⟩

theorem init_of_initialised (c : Consts) (fuel : Nat) (s : AM4096) (w : World)
    (h : s._initialised = true) : s.init c fuel w = some (0, s, w) := by
  simp [AM4096.init, h]

theorem init_success_initialised (c : Consts) (fuel : Nat) (s s1 : AM4096) (w w1 : World)
    (h : s.init c fuel w = some (0, s1, w1)) : s1._initialised = true := by
  unfold AM4096.init at h
  by_cases hi : s._initialised = true
  · rw [if_pos hi] at h
    simp only [Option.some.injEq, Prod.mk.injEq, true_and] at h
    rw [← h.1]
    exact hi
  · rw [if_neg hi] at h
    cases hl : initLocate c fuel s w with
    | none => rw [hl] at h; simp at h
    | some r =>
      obtain ⟨st, s2, w2⟩ := r
      rw [hl] at h
      by_cases hst : st ≠ 0
      · simp [hst] at h
      · simp only [hst, if_false, Option.some.injEq, Prod.mk.injEq, true_and] at h
        rw [← h.1]
        rfl

/-- C13 as stated fails: on the sample register map with a transport on which
every call fails, the first `init()` returns 1 after 51 calls (frequency, the
probe, 16 scan probes with their delays) and the second `init()` in a row makes
51 calls again, starting with the frequency setting and the probe. -/
theorem init_twice_counterexample :
    (initTwice sampleConsts 17 (AM4096.new 0x50) (constWorld 1 0 0)).map
      (fun r => (r.1.1, r.1.2.2.trace.length, r.2.1, r.2.2.2.trace.length,
        (r.2.2.2.trace.drop r.1.2.2.trace.length).take 3)) =
      some (1, 51, 1, 102,
        [Event.frequency 100000, Event.write 0xA0 [48] true, Event.read 0xA0 2 false]) := by
  decide

/-- C13, amended: on a handle that is already initialised, `init()` returns 0
with no transport call and no delay and leaves the working address, device id,
configuration and flag unchanged; hence when `init()` is called twice in a row
and the first call succeeds, transport activity happens only in the first
call. -/
theorem init_idempotent_after_success (c : Consts) (fuel : Nat) (s s1 : AM4096)
    (w w1 : World) :
    (s._initialised = true → s.init c fuel w = some (0, s, w)) ∧
    (s.init c fuel w = some (0, s1, w1) →
      s1._initialised = true ∧
      (∀ fuel2, s1.init c fuel2 w1 = some (0, s1, w1)) ∧
      initTwice c fuel s w = some ((0, s1, w1), (0, s1, w1))) := by
  refine ⟨init_of_initialised c fuel s w, fun h => ?_⟩
  have hi := init_success_initialised c fuel s s1 w w1 h
  refine ⟨hi, fun fuel2 => init_of_initialised c fuel2 s1 w1 hi, ?_⟩
  unfold initTwice
  rw [h]
  simp only [init_of_initialised c fuel s1 w1 hi]

/-- Witness of C13 (amended): the initialised handle at `0x50`. -/
theorem init_idempotent_after_success_witness :
    initialisedHandle.init sampleConsts 0 (constWorld 0 0 0) =
      some (0, initialisedHandle, constWorld 0 0 0) ∧
    initTwice sampleConsts 0 initialisedHandle (constWorld 0 0 0) =
      some ((0, initialisedHandle, constWorld 0 0 0), (0, initialisedHandle, constWorld 0 0 0)) :=
  ⟨(init_idempotent_after_success sampleConsts 0 initialisedHandle initialisedHandle
      (constWorld 0 0 0) (constWorld 0 0 0)).1 rfl,
   ((init_idempotent_after_success sampleConsts 0 initialisedHandle initialisedHandle
      (constWorld 0 0 0) (constWorld 0 0 0)).2 rfl).2.2⟩

theorem readReg_value_eq_readValue (s : AM4096) (w : World) (addr : Nat) :
    (s.readReg w addr).2.1 = readValue w 0 := by
  rw [readReg_value]
  rfl

theorem readValue_shift (w w1 : World) (n i : Nat)
    (h : w1.replies = fun k => w.replies (k + 2 * n)) :
    readValue w1 i = readValue w (n + i) := by
  unfold readValue
  rw [h]
  have e : 2 * i + 1 + 2 * n = 2 * (n + i) + 1 := by ring
  simp only [e]

theorem readStep_fold (s : AM4096) (base n : Nat) :
    ∀ acc : (Nat → Nat) × World,
      ((List.range n).foldl (readStep s base) acc).2.trace =
        acc.2.trace ++ seqReads s._hw_addr base n ∧
      (((List.range n).foldl (readStep s base) acc).2.replies =
        fun k => acc.2.replies (k + 2 * n)) ∧
      ∀ j, ((List.range n).foldl (readStep s base) acc).1 j =
        if j < n then readValue acc.2 j else acc.1 j := by
  induction n with
  | zero => intro acc; simp [seqReads]
  | succ n ih =>
    intro acc
    obtain ⟨h1, h2, h3⟩ := ih acc
    rw [List.range_succ, List.foldl_append, List.foldl_cons, List.foldl_nil]
    refine ⟨?_, ?_, ?_⟩
    · simp only [readStep, readReg_trace, h1, seqReads, List.append_assoc]
    · simp only [readStep, readReg_replies, h2]
      funext k
      congr 1
      ring
    · intro j
      simp only [readStep, setWord, readReg_value_eq_readValue]
      by_cases hj : j = n
      · subst hj
        rw [if_pos rfl, if_pos (by omega), readValue_shift acc.2 _ j 0 h2]
        rfl
      · rw [if_neg hj, h3 j]
        by_cases hlt : j < n
        · rw [if_pos hlt, if_pos (by omega)]
        · rw [if_neg hlt, if_neg (by omega)]

theorem initRead_spec (c : Consts) (s : AM4096) (w : World) :
    (initRead c s w).1._initialised = true ∧
    (initRead c s w).1._hw_addr = s._hw_addr ∧
    (initRead c s w).2.trace = w.trace ++
      (seqReads s._hw_addr c.AM4096_EEPROM_DEVICE_ID_ADDR 2 ++
        seqReads s._hw_addr c.AM4096_EEPROM_CONFIG_DATA_ADDR c.AM4096_CONFIG_DATA_LEN) ∧
    ((initRead c s w).2.replies =
      fun k => w.replies (k + 2 * (2 + c.AM4096_CONFIG_DATA_LEN))) ∧
    ∀ i, i < c.AM4096_CONFIG_DATA_LEN → (initRead c s w).1._configuration i = readValue w (2 + i) := by
  obtain ⟨a1, a2, _⟩ := readStep_fold s c.AM4096_EEPROM_DEVICE_ID_ADDR 2 (fun _ => 0, w)
  have hlen : AM4096_EEPROM_DEVICE_ID_LEN = 2 := rfl
  refine ⟨rfl, rfl, ?_, ?_, ?_⟩
  · unfold initRead
    simp only [hlen]
    rw [(readStep_fold _ _ _ _).1, a1, List.append_assoc]
  · unfold initRead
    simp only [hlen]
    rw [(readStep_fold _ _ _ _).2.1, a2]
    funext k
    beta_reduce
    congr 1
    ring
  · intro i hi
    unfold initRead
    simp only [hlen]
    rw [(readStep_fold _ _ _ _).2.2 i, if_pos hi]
    exact readValue_shift w _ 2 i a2

/-- C17: after a successful `init()` on an uninitialised handle, for every
`i < AM4096_CONFIG_DATA_LEN` the in-memory configuration word `i` is the value
delivered by the read of the EEPROM register `AM4096_EEPROM_CONFIG_DATA_ADDR + i`;
after the probe (or scan) the calls are the two device-id reads, then these
reads in increasing order of `i`, so that word `i` comes from the read number
`2 + i`; in particular word 0 is the value of the first of them, not the value
obtained by the probe of the RAM configuration register. -/
theorem init_reads_configuration_from_eeprom (c : Consts) (fuel : Nat) (s s1 : AM4096)
    (w w1 : World) (hu : s._initialised = false)
    (hloc : initLocate c fuel s w = some (0, s1, w1)) :
    ∃ s2 w2, s.init c fuel w = some (0, s2, w2) ∧
      (∀ i, i < c.AM4096_CONFIG_DATA_LEN → s2._configuration i = readValue w1 (2 + i)) ∧
      w2.trace = w1.trace ++
        (seqReads s1._hw_addr c.AM4096_EEPROM_DEVICE_ID_ADDR 2 ++
          seqReads s1._hw_addr c.AM4096_EEPROM_CONFIG_DATA_ADDR c.AM4096_CONFIG_DATA_LEN) ∧
      (1 ≤ c.AM4096_CONFIG_DATA_LEN → s2._configuration 0 = readValue w1 2) := by
  obtain ⟨_, _, h3, _, h5⟩ := initRead_spec c s1 w1
  refine ⟨(initRead c s1 w1).1, (initRead c s1 w1).2, ?_, h5, h3, fun hN => h5 0 (by omega)⟩
  simp [AM4096.init, hu, hloc]

/-! ## Failure of initialisation -/

theorem find_exhausted (c : Consts) (s : AM4096) (w : World) (fuel : Nat)
    (hlast : c.AM4096_ADDR_LAST < 0xFF) (hrange : c.AM4096_ADDR_FIRST ≤ c.AM4096_ADDR_LAST)
    (hfail : ∀ i, i < c.AM4096_ADDR_LAST - c.AM4096_ADDR_FIRST + 1 → probeStatus w i ≠ 0)
    (hfuel : c.AM4096_ADDR_LAST - c.AM4096_ADDR_FIRST + 2 ≤ fuel) :
    ∃ s1 w1, s.findAM4096Device c fuel w = some (1, s1, w1) ∧
      s1._hw_addr = s._hw_addr ∧ s1._device_id = s._device_id ∧
      s1._initialised = s._initialised ∧
      w1.trace = w.trace ++
        failedProbes c c.AM4096_ADDR_FIRST (c.AM4096_ADDR_LAST - c.AM4096_ADDR_FIRST + 1) ∧
      (w1.replies =
        fun n => w.replies (n + 2 * (c.AM4096_ADDR_LAST - c.AM4096_ADDR_FIRST + 1))) := by
  have hfirst : c.AM4096_ADDR_FIRST % 256 = c.AM4096_ADDR_FIRST := Nat.mod_eq_of_lt (by omega)
  obtain ⟨flag1, s1, w1, hf1, ha1, hd1, hi1, ht1, hr1, hrun⟩ :=
    findLoop_failed_probes c (c.AM4096_ADDR_LAST - c.AM4096_ADDR_FIRST + 1) 1
      { s with _hw_addr := c.AM4096_ADDR_FIRST % 256 } w
      (by decide) (by simp only [hfirst]; omega) (by simp only [hfirst]; omega) hfail
  simp only [hfirst] at ha1 ht1
  obtain ⟨f, hf⟩ : ∃ f, fuel = (f + 1) + (c.AM4096_ADDR_LAST - c.AM4096_ADDR_FIRST + 1) :=
    ⟨fuel - (c.AM4096_ADDR_LAST - c.AM4096_ADDR_FIRST + 2), by omega⟩
  have hcond : ¬ (flag1 ≠ 0 ∧ s1._hw_addr ≤ c.AM4096_ADDR_LAST) := by
    intro h
    omega
  have hloop : findLoop c fuel 1 { s with _hw_addr := c.AM4096_ADDR_FIRST % 256 } w =
      some (flag1, s1, w1) := by
    rw [hf, hrun (f + 1)]
    conv_lhs => unfold findLoop
    rw [if_neg hcond]
  refine ⟨{ s1 with _hw_addr := s._hw_addr }, w1, ?_, rfl, hd1, hi1, ht1, hr1⟩
  unfold AM4096.findAM4096Device
  simp only [hloop]
  simp [AM4096_ERROR_NONE, hf1]

theorem find_success (c : Consts) (s : AM4096) (w : World) (k fuel : Nat)
    (hk : c.AM4096_ADDR_FIRST + k ≤ c.AM4096_ADDR_LAST)
    (hbyte : c.AM4096_ADDR_FIRST + k ≤ 255)
    (hfail : ∀ i, i < k → probeStatus w i ≠ 0) (hok : probeStatus w k = 0)
    (hfuel : k + 2 ≤ fuel) :
    ∃ s1 w1, s.findAM4096Device c fuel w = some (0, s1, w1) := by
  have hfirst : c.AM4096_ADDR_FIRST % 256 = c.AM4096_ADDR_FIRST := Nat.mod_eq_of_lt (by omega)
  obtain ⟨flag1, s1, w1, hf1, ha1, _, _, ht1, hr1, hrun⟩ :=
    findLoop_failed_probes c k 1 { s with _hw_addr := c.AM4096_ADDR_FIRST % 256 } w
      (by decide) (by simp only [hfirst]; omega) (by simp only [hfirst]; omega) hfail
  simp only [hfirst] at ha1 ht1
  obtain ⟨f, hf⟩ : ∃ f, fuel = (f + 2) + k := ⟨fuel - (k + 2), by omega⟩
  have hst : (s1.readReg w1 c.AM4096_REGISTER_CONFIG_DATA_ADDR).1 = 0 := by
    rw [readReg_status, probeStatus_shift w w1 k 0 hr1]
    exact hok
  have hcond : flag1 ≠ 0 ∧ s1._hw_addr ≤ c.AM4096_ADDR_LAST := ⟨hf1, by omega⟩
  have hloop : findLoop c fuel 1 { s with _hw_addr := c.AM4096_ADDR_FIRST % 256 } w =
      some (0, ⟨s1._hw_addr, s1._device_id, s1._initialised, setWord s1._configuration 0
                  (s1.readReg w1 c.AM4096_REGISTER_CONFIG_DATA_ADDR).2.1⟩,
        (s1.readReg w1 c.AM4096_REGISTER_CONFIG_DATA_ADDR).2.2) := by
    rw [hf, hrun (f + 2)]
    conv_lhs => unfold findLoop
    simp only [hcond, and_self, if_true, hst, ne_eq, not_true_eq_false, if_false]
    conv_lhs => unfold findLoop
    simp
  refine ⟨⟨s1._hw_addr, s1._device_id, s1._initialised, setWord s1._configuration 0
      (s1.readReg w1 c.AM4096_REGISTER_CONFIG_DATA_ADDR).2.1⟩,
    (s1.readReg w1 c.AM4096_REGISTER_CONFIG_DATA_ADDR).2.2, ?_⟩
  unfold AM4096.findAM4096Device
  simp only [hloop]
  simp [AM4096_ERROR_NONE]

theorem initLocate_probe_ok (c : Consts) (fuel : Nat) (s : AM4096) (w : World)
    (h : probeStatus w 0 = 0) :
    initLocate c fuel s w =
      some (0, ⟨s._hw_addr, s._device_id, s._initialised, setWord s._configuration 0
          (s.readReg (w.frequency 100000) c.AM4096_REGISTER_CONFIG_DATA_ADDR).2.1⟩,
        (s.readReg (w.frequency 100000) c.AM4096_REGISTER_CONFIG_DATA_ADDR).2.2) := by
  have hst : (s.readReg (w.frequency 100000) c.AM4096_REGISTER_CONFIG_DATA_ADDR).1 = 0 := by
    rw [readReg_status]
    exact h
  unfold initLocate
  simp [hst]

theorem first_success (w : World) (n : Nat) (h : ∃ j, j < n ∧ probeStatus w j = 0) :
    ∃ k, k < n ∧ probeStatus w k = 0 ∧ ∀ i, i < k → probeStatus w i ≠ 0 := by
  refine ⟨Nat.find h, (Nat.find_spec h).1, (Nat.find_spec h).2, ?_⟩
  intro i hi hz
  exact Nat.find_min h hi ⟨Nat.lt_trans hi (Nat.find_spec h).1, hz⟩

theorem init_uninitialised (c : Consts) (fuel : Nat) (s : AM4096) (w : World)
    (hu : s._initialised = false) :
    s.init c fuel w =
      match initLocate c fuel s w with
      | none => none
      | some (status, s1, w1) =>
        if status ≠ 0 then some (1, s1, w1)
        else some (0, (initRead c s1 w1).1, (initRead c s1 w1).2) := by
  simp [AM4096.init, hu]

/-- C14: `init()` on an uninitialised handle (non-empty scan range with
`AM4096_ADDR_LAST < 0xFF`, fuel for the scan) returns, and it reports failure if
and only if the probe at the configured address fails and the probe fails at
every address of the scan range; in that case it returns 1, the handle remains
uninitialised, its working address and its device id are those before the call,
the calls made are the frequency setting, the probe and the failed scan, and a
later `init()` probes again: when the device then answers, that call succeeds
after the frequency setting and the probe at the same address. -/
theorem init_fails_iff_no_device_answers (c : Consts) (fuel : Nat) (s : AM4096) (w : World)
    (hu : s._initialised = false) (hlast : c.AM4096_ADDR_LAST < 0xFF)
    (hrange : c.AM4096_ADDR_FIRST ≤ c.AM4096_ADDR_LAST)
    (hfuel : c.AM4096_ADDR_LAST - c.AM4096_ADDR_FIRST + 2 ≤ fuel) :
    ∃ r s1 w1, s.init c fuel w = some (r, s1, w1) ∧
      (r ≠ 0 ↔ (probeStatus w 0 ≠ 0 ∧
        ∀ j, j < c.AM4096_ADDR_LAST - c.AM4096_ADDR_FIRST + 1 → probeStatus w (1 + j) ≠ 0)) ∧
      (r ≠ 0 → r = 1 ∧ s1._initialised = false ∧ s1._hw_addr = s._hw_addr ∧
        s1._device_id = s._device_id ∧
        w1.trace = w.trace ++ ([Event.frequency 100000] ++
          readTrace s._hw_addr c.AM4096_REGISTER_CONFIG_DATA_ADDR ++
          failedProbes c c.AM4096_ADDR_FIRST (c.AM4096_ADDR_LAST - c.AM4096_ADDR_FIRST + 1)) ∧
        ∀ fuel2, probeStatus w1 0 = 0 →
          ∃ s2 w2 t, s1.init c fuel2 w1 = some (0, s2, w2) ∧ s2._initialised = true ∧
            w2.trace = w1.trace ++ ([Event.frequency 100000] ++
              readTrace s._hw_addr c.AM4096_REGISTER_CONFIG_DATA_ADDR ++ t)) := by
  rw [init_uninitialised c fuel s w hu]
  by_cases h0 : probeStatus w 0 = 0
  · rw [initLocate_probe_ok c fuel s w h0]
    refine ⟨0, _, _, rfl, ?_, ?_⟩
    · simp [h0]
    · intro h; exact absurd rfl h
  · have hst : (s.readReg (w.frequency 100000) c.AM4096_REGISTER_CONFIG_DATA_ADDR).1 ≠ 0 := by
      rw [readReg_status]
      exact h0
    have hrep : (s.readReg (w.frequency 100000) c.AM4096_REGISTER_CONFIG_DATA_ADDR).2.2.replies =
        fun k => w.replies (k + 2 * 1) := by
      rw [readReg_replies]
      rfl
    have htr : (s.readReg (w.frequency 100000) c.AM4096_REGISTER_CONFIG_DATA_ADDR).2.2.trace =
        w.trace ++ ([Event.frequency 100000] ++
          readTrace s._hw_addr c.AM4096_REGISTER_CONFIG_DATA_ADDR) := by
      rw [readReg_trace]
      simp [World.frequency]
    have hloc : initLocate c fuel s w =
        match AM4096.findAM4096Device c fuel
          ⟨s._hw_addr, s._device_id, s._initialised, setWord s._configuration 0
            (s.readReg (w.frequency 100000) c.AM4096_REGISTER_CONFIG_DATA_ADDR).2.1⟩
          (s.readReg (w.frequency 100000) c.AM4096_REGISTER_CONFIG_DATA_ADDR).2.2 with
        | none => none
        | some (found, s2, w2) => if found ≠ 0 then some (1, s2, w2) else some (0, s2, w2) := by
      unfold initLocate
      simp only [hst, ne_eq, not_false_eq_true, if_true]
    rw [hloc]
    by_cases hall : ∀ j, j < c.AM4096_ADDR_LAST - c.AM4096_ADDR_FIRST + 1 →
        probeStatus w (1 + j) ≠ 0
    · obtain ⟨s1, w1, hfind, ha, hd, hi, ht, hr⟩ := find_exhausted c
        ⟨s._hw_addr, s._device_id, s._initialised, setWord s._configuration 0
          (s.readReg (w.frequency 100000) c.AM4096_REGISTER_CONFIG_DATA_ADDR).2.1⟩
        (s.readReg (w.frequency 100000) c.AM4096_REGISTER_CONFIG_DATA_ADDR).2.2 fuel hlast hrange
        (by
          intro i hi
          rw [probeStatus_shift w _ 1 i hrep]
          exact hall i hi)
        hfuel
      rw [hfind]
      refine ⟨1, s1, w1, by simp, ?_, ?_⟩
      · exact ⟨fun _ => ⟨h0, hall⟩, fun _ => by decide⟩
      · intro _
        have hu1 : s1._initialised = false := by rw [hi]; exact hu
        refine ⟨rfl, hu1, ha, hd, ?_, ?_⟩
        · rw [ht, htr, List.append_assoc]
        · intro fuel2 hp
          rw [init_uninitialised c fuel2 s1 w1 hu1, initLocate_probe_ok c fuel2 s1 w1 hp]
          obtain ⟨i1, _, i3, _, _⟩ := initRead_spec c
            ⟨s1._hw_addr, s1._device_id, s1._initialised, setWord s1._configuration 0
              (s1.readReg (w1.frequency 100000) c.AM4096_REGISTER_CONFIG_DATA_ADDR).2.1⟩
            (s1.readReg (w1.frequency 100000) c.AM4096_REGISTER_CONFIG_DATA_ADDR).2.2
          refine ⟨_, _, seqReads s1._hw_addr c.AM4096_EEPROM_DEVICE_ID_ADDR 2 ++
            seqReads s1._hw_addr c.AM4096_EEPROM_CONFIG_DATA_ADDR c.AM4096_CONFIG_DATA_LEN,
            rfl, i1, ?_⟩
          rw [i3, readReg_trace, ha]
          simp [World.frequency]
    · have hex : ∃ j, j < c.AM4096_ADDR_LAST - c.AM4096_ADDR_FIRST + 1 ∧
          probeStatus (s.readReg (w.frequency 100000)
            c.AM4096_REGISTER_CONFIG_DATA_ADDR).2.2 j = 0 := by
        by_contra hne
        apply hall
        intro j hj hz
        apply hne
        refine ⟨j, hj, ?_⟩
        rw [probeStatus_shift w _ 1 j hrep]
        exact hz
      obtain ⟨k, hk, hok, hfail⟩ := first_success _ _ hex
      obtain ⟨s1, w1, hfind⟩ := find_success c
        ⟨s._hw_addr, s._device_id, s._initialised, setWord s._configuration 0
          (s.readReg (w.frequency 100000) c.AM4096_REGISTER_CONFIG_DATA_ADDR).2.1⟩
        (s.readReg (w.frequency 100000) c.AM4096_REGISTER_CONFIG_DATA_ADDR).2.2 k fuel
        (by omega) (by omega) hfail hok (by omega)
      rw [hfind]
      refine ⟨0, (initRead c s1 w1).1, (initRead c s1 w1).2, by simp, ?_, ?_⟩
      · exact ⟨fun h => absurd rfl h, fun h => absurd h.2 hall⟩
      · intro h; exact absurd rfl h

/-- Witness of C14 on the sample register map: no device answers at the
configured address `0x50` nor at any of the 16 scanned addresses. -/
theorem init_fails_iff_no_device_answers_witness :
    ∃ r s1 w1, (AM4096.new 0x50).init sampleConsts 17 (constWorld 1 0 0) = some (r, s1, w1) ∧
      (r ≠ 0 ↔ (probeStatus (constWorld 1 0 0) 0 ≠ 0 ∧
        ∀ j, j < sampleConsts.AM4096_ADDR_LAST - sampleConsts.AM4096_ADDR_FIRST + 1 →
          probeStatus (constWorld 1 0 0) (1 + j) ≠ 0)) ∧
      (r ≠ 0 → r = 1 ∧ s1._initialised = false ∧ s1._hw_addr = (AM4096.new 0x50)._hw_addr ∧
        s1._device_id = (AM4096.new 0x50)._device_id ∧
        w1.trace = (constWorld 1 0 0).trace ++ ([Event.frequency 100000] ++
          readTrace (AM4096.new 0x50)._hw_addr sampleConsts.AM4096_REGISTER_CONFIG_DATA_ADDR ++
          failedProbes sampleConsts sampleConsts.AM4096_ADDR_FIRST
            (sampleConsts.AM4096_ADDR_LAST - sampleConsts.AM4096_ADDR_FIRST + 1)) ∧
        ∀ fuel2, probeStatus w1 0 = 0 →
          ∃ s2 w2 t, s1.init sampleConsts fuel2 w1 = some (0, s2, w2) ∧ s2._initialised = true ∧
            w2.trace = w1.trace ++ ([Event.frequency 100000] ++
              readTrace (AM4096.new 0x50)._hw_addr
                sampleConsts.AM4096_REGISTER_CONFIG_DATA_ADDR ++ t)) :=
  init_fails_iff_no_device_answers sampleConsts 17 (AM4096.new 0x50) (constWorld 1 0 0)
    rfl (by decide) (by decide) (by decide)

/-- Witness of C17 on the sample register map, the probe succeeding at once. -/
theorem init_reads_configuration_from_eeprom_witness :
    ∃ s2 w2, (AM4096.new 0x50).init sampleConsts 0 idWorld = some (0, s2, w2) ∧
      (∀ i, i < sampleConsts.AM4096_CONFIG_DATA_LEN →
        s2._configuration i =
          readValue ((AM4096.new 0x50).readReg (idWorld.frequency 100000) 48).2.2 (2 + i)) ∧
      w2.trace = ((AM4096.new 0x50).readReg (idWorld.frequency 100000) 48).2.2.trace ++
        (seqReads idState._hw_addr sampleConsts.AM4096_EEPROM_DEVICE_ID_ADDR 2 ++
          seqReads idState._hw_addr sampleConsts.AM4096_EEPROM_CONFIG_DATA_ADDR
            sampleConsts.AM4096_CONFIG_DATA_LEN) ∧
      (1 ≤ sampleConsts.AM4096_CONFIG_DATA_LEN →
        s2._configuration 0 =
          readValue ((AM4096.new 0x50).readReg (idWorld.frequency 100000) 48).2.2 2) :=
  init_reads_configuration_from_eeprom sampleConsts 0 (AM4096.new 0x50) idState idWorld
    ((AM4096.new 0x50).readReg (idWorld.frequency 100000) 48).2.2 rfl rfl

/-! ## Register read: phases and status -/

/-- C15 as stated fails: when the address write reports 1 and the 2-byte read
reports -1, both phases report failure and `readReg` returns 0. -/
theorem readReg_status_counterexample :
    (cancellingWorld.replies 0).status ≠ 0 ∧ (cancellingWorld.replies 1).status ≠ 0 ∧
    ((AM4096.new 0x50).readReg cancellingWorld 48).2.2.trace =
      [Event.write 0xA0 [48] true, Event.read 0xA0 2 false] ∧
    ((AM4096.new 0x50).readReg cancellingWorld 48).1 = 0 := by
  decide

/-- C15, amended: for every register address and every transport behaviour,
`readReg` performs both bus phases in order (the 1-byte address write with the
transaction kept open, the 20 us delay for an address up to `0x1F`, the 2-byte
read), also when the first phase fails, and returns the sum of the two phase
statuses accumulated in an `int`, that is their exact sum reduced to 32 bits:
zero when both succeed, and nonzero whenever a phase reports failure and
neither status (an `int`, so below `2^31`) is negative. -/
theorem readReg_both_phases_status_sum (s : AM4096) (w : World) (addr : Nat) :
    (s.readReg w addr).2.2.trace = w.trace ++
      (Event.write (s._hw_addr <<< 1) [addr % 256] true ::
        ((if addr % 256 ≤ 0x1F then [Event.wait_us 20] else []) ++
          [Event.read (s._hw_addr <<< 1) 2 false])) ∧
    (s.readReg w addr).1 = toInt32 ((w.replies 0).status + (w.replies 1).status) ∧
    ((w.replies 0).status = 0 → (w.replies 1).status = 0 → (s.readReg w addr).1 = 0) ∧
    (0 ≤ (w.replies 0).status → (w.replies 0).status < 2147483648 →
      0 ≤ (w.replies 1).status → (w.replies 1).status < 2147483648 →
      ((w.replies 0).status ≠ 0 ∨ (w.replies 1).status ≠ 0) → (s.readReg w addr).1 ≠ 0) := by
  have hst : (s.readReg w addr).1 =
      toInt32 ((w.replies 0).status + (w.replies 1).status) := by
    rw [readReg_status]
    show addInt32 (addInt32 0 (w.replies 0).status) (w.replies 1).status = _
    unfold addInt32
    rw [toInt32_toInt32_add, Int.zero_add]
  refine ⟨readReg_trace s w addr, hst, ?_, ?_⟩
  · intro h0 h1
    rw [hst, h0, h1]
    rfl
  · intro h0 h0b h1 h1b hne
    rw [hst]
    unfold toInt32
    omega

/-- Witness of C15 (amended): the address write fails with status 1, the read
succeeds; the status is nonzero and both phases were performed. -/
theorem readReg_both_phases_status_sum_witness :
    ((AM4096.new 0x50).readReg (scriptWorld [⟨1, 0, 0⟩]) 48).1 ≠ 0 :=
  (readReg_both_phases_status_sum (AM4096.new 0x50) (scriptWorld [⟨1, 0, 0⟩]) 48).2.2.2
    (by decide) (by decide) (by decide) (by decide) (Or.inl (by decide))

/-! ## Output read -/

theorem setWord_apply (data : Nat → Nat) (i v j : Nat) :
    setWord data i v j = if j = i then v else data j := rfl

theorem readCount_sameReads (hw addr n : Nat) : readCount (sameReads hw addr n) = n := by
  induction n with
  | zero => simp [sameReads, readCount]
  | succ n ih => simp only [sameReads, readCount_append, readCount_readTrace, ih]

theorem readOutput_fold (s : AM4096) (addr : Nat) (out : Nat → Nat) (w : World) (n : Nat) :
    ((List.range n).foldl
      (fun (acc : Int × (Nat → Nat) × World) i =>
        ((s.readReg acc.2.2 addr).1, setWord acc.2.1 i (s.readReg acc.2.2 addr).2.1,
          (s.readReg acc.2.2 addr).2.2))
      (0, out, w)).2.2.trace = w.trace ++ sameReads s._hw_addr addr n ∧
    (((List.range n).foldl
      (fun (acc : Int × (Nat → Nat) × World) i =>
        ((s.readReg acc.2.2 addr).1, setWord acc.2.1 i (s.readReg acc.2.2 addr).2.1,
          (s.readReg acc.2.2 addr).2.2))
      (0, out, w)).2.2.replies = fun k => w.replies (k + 2 * n)) ∧
    (∀ j, ((List.range n).foldl
      (fun (acc : Int × (Nat → Nat) × World) i =>
        ((s.readReg acc.2.2 addr).1, setWord acc.2.1 i (s.readReg acc.2.2 addr).2.1,
          (s.readReg acc.2.2 addr).2.2))
      (0, out, w)).2.1 j = if j < n then readValue w j else out j) ∧
    ((List.range n).foldl
      (fun (acc : Int × (Nat → Nat) × World) i =>
        ((s.readReg acc.2.2 addr).1, setWord acc.2.1 i (s.readReg acc.2.2 addr).2.1,
          (s.readReg acc.2.2 addr).2.2))
      (0, out, w)).1 = if n = 0 then 0 else probeStatus w (n - 1) := by
  induction n with
  | zero => simp [sameReads]
  | succ n ih =>
    obtain ⟨h1, h2, h3, _⟩ := ih
    rw [List.range_succ, List.foldl_append, List.foldl_cons, List.foldl_nil]
    refine ⟨?_, ?_, ?_, ?_⟩
    · simp only [readReg_trace, h1, sameReads, List.append_assoc]
    · simp only [readReg_replies, h2]
      funext k
      congr 1
      ring
    · intro j
      dsimp only
      rw [setWord_apply, readReg_value_eq_readValue]
      by_cases hj : j = n
      · subst hj
        rw [if_pos rfl, if_pos (by omega), readValue_shift w _ j 0 h2]
        rfl
      · rw [if_neg hj, h3 j]
        by_cases hlt : j < n
        · rw [if_pos hlt, if_pos (by omega)]
        · rw [if_neg hlt, if_neg (by omega)]
    · rw [if_neg (by omega), readReg_status]
      have := probeStatus_shift w _ n 0 h2
      simp only [probeStatus, Nat.mul_zero, Nat.zero_add, Nat.add_zero] at this
      simp only [probeStatus, Nat.add_sub_cancel]
      exact this

/-- C16: `readOutputDataRegisters` issues exactly
`AM4096_REGISTER_MEAS_DATA_LEN` register reads, every one of them at the register
`AM4096_REGISTER_MEAS_DATA_ADDR`, stores the value of the `i`-th read in output
word `i`, and returns the status of the last read alone (0 when there is no
read), whatever the statuses of the earlier reads. -/
theorem readOutputDataRegisters_same_register_last_status (c : Consts) (s : AM4096)
    (w : World) (out : Nat → Nat) :
    (s.readOutputDataRegisters c w out).2.2.trace = w.trace ++
      sameReads s._hw_addr c.AM4096_REGISTER_MEAS_DATA_ADDR c.AM4096_REGISTER_MEAS_DATA_LEN ∧
    readCount (sameReads s._hw_addr c.AM4096_REGISTER_MEAS_DATA_ADDR
      c.AM4096_REGISTER_MEAS_DATA_LEN) = c.AM4096_REGISTER_MEAS_DATA_LEN ∧
    (∀ i, i < c.AM4096_REGISTER_MEAS_DATA_LEN →
      (s.readOutputDataRegisters c w out).2.1 i = readValue w i) ∧
    (1 ≤ c.AM4096_REGISTER_MEAS_DATA_LEN →
      (s.readOutputDataRegisters c w out).1 =
        probeStatus w (c.AM4096_REGISTER_MEAS_DATA_LEN - 1)) ∧
    (c.AM4096_REGISTER_MEAS_DATA_LEN = 0 → (s.readOutputDataRegisters c w out).1 = 0) := by
  obtain ⟨h1, _, h3, h4⟩ := readOutput_fold s c.AM4096_REGISTER_MEAS_DATA_ADDR out w
    c.AM4096_REGISTER_MEAS_DATA_LEN
  refine ⟨h1, readCount_sameReads _ _ _, ?_, ?_, ?_⟩
  · intro i hi
    have := h3 i
    rw [if_pos hi] at this
    exact this
  · intro hM
    have := h4
    rw [if_neg (by omega)] at this
    exact this
  · intro hM
    have := h4
    rw [if_pos hM] at this
    exact this

/-- Witness of C16 on the sample register map (four reads): the first read
fails, the last succeeds, and the returned status is 0. -/
theorem readOutputDataRegisters_same_register_last_status_witness :
    probeStatus (scriptWorld [⟨1, 0, 0⟩]) 0 ≠ 0 ∧
    ((AM4096.new 0x50).readOutputDataRegisters sampleConsts (scriptWorld [⟨1, 0, 0⟩])
      (fun _ => 0)).1 = 0 :=
  ⟨by decide,
   ((readOutputDataRegisters_same_register_last_status sampleConsts (AM4096.new 0x50)
      (scriptWorld [⟨1, 0, 0⟩]) (fun _ => 0)).2.2.2.1 (by decide)).trans (by decide)⟩

/-! ## The initialised flag -/

theorem findLoop_initialised (c : Consts) (fuel : Nat) :
    ∀ (flag : Int) (s : AM4096) (w : World) (r : Int × AM4096 × World),
      findLoop c fuel flag s w = some r → r.2.1._initialised = s._initialised := by
  induction fuel with
  | zero => intro flag s w r h; simp [findLoop] at h
  | succ fuel ih =>
    intro flag s w r h
    unfold findLoop at h
    by_cases hc : flag ≠ 0 ∧ s._hw_addr ≤ c.AM4096_ADDR_LAST
    · rw [if_pos hc] at h
      by_cases hr : (s.readReg w c.AM4096_REGISTER_CONFIG_DATA_ADDR).1 ≠ 0
      · simp only [hr, ne_eq, not_false_eq_true, if_true] at h
        have h2 := ih _ _ _ _ h
        exact h2
      · simp only [hr, if_false] at h
        have h2 := ih _ _ _ _ h
        exact h2
    · rw [if_neg hc] at h
      simp only [Option.some.injEq] at h
      rw [← h]

theorem findAM4096Device_initialised (c : Consts) (fuel : Nat) (s : AM4096) (w : World)
    (r : Int × AM4096 × World) (h : s.findAM4096Device c fuel w = some r) :
    r.2.1._initialised = s._initialised := by
  unfold AM4096.findAM4096Device at h
  cases hl : findLoop c fuel 1 { s with _hw_addr := c.AM4096_ADDR_FIRST % 256 } w with
  | none => rw [hl] at h; simp at h
  | some q =>
    obtain ⟨f, s1, w1⟩ := q
    have hq := findLoop_initialised c fuel 1 _ w _ hl
    rw [hl] at h
    by_cases hf : f ≠ AM4096_ERROR_NONE
    · simp only [hf, ne_eq, not_false_eq_true, if_true, Option.some.injEq] at h
      rw [← h]
      exact hq
    · simp only [hf, if_false, Option.some.injEq] at h
      rw [← h]
      exact hq

theorem initLocate_initialised (c : Consts) (fuel : Nat) (s : AM4096) (w : World)
    (r : Int × AM4096 × World) (h : initLocate c fuel s w = some r) :
    r.2.1._initialised = s._initialised := by
  unfold initLocate at h
  by_cases hp : (s.readReg (w.frequency 100000) c.AM4096_REGISTER_CONFIG_DATA_ADDR).1 ≠ 0
  · simp only [hp, ne_eq, not_false_eq_true, if_true] at h
    cases hf : AM4096.findAM4096Device c fuel
        ⟨s._hw_addr, s._device_id, s._initialised, setWord s._configuration 0
          (s.readReg (w.frequency 100000) c.AM4096_REGISTER_CONFIG_DATA_ADDR).2.1⟩
        (s.readReg (w.frequency 100000) c.AM4096_REGISTER_CONFIG_DATA_ADDR).2.2 with
    | none => rw [hf] at h; simp at h
    | some q =>
      obtain ⟨f, s1, w1⟩ := q
      have hq := findAM4096Device_initialised c fuel _ _ _ hf
      rw [hf] at h
      by_cases hz : f ≠ 0
      · simp only [hz, ne_eq, not_false_eq_true, if_true, Option.some.injEq] at h
        rw [← h]
        exact hq
      · simp only [hz, if_false, Option.some.injEq] at h
        rw [← h]
        exact hq
  · simp only [hp, if_false, Option.some.injEq] at h
    rw [← h]

theorem init_failure_keeps_flag (c : Consts) (fuel : Nat) (s s1 : AM4096) (w w1 : World)
    (r : Int) (hu : s._initialised = false) (h : s.init c fuel w = some (r, s1, w1))
    (hr : r ≠ 0) : s1._initialised = false := by
  rw [init_uninitialised c fuel s w hu] at h
  cases hl : initLocate c fuel s w with
  | none => rw [hl] at h; simp at h
  | some q =>
    obtain ⟨st, s2, w2⟩ := q
    have hq := initLocate_initialised c fuel s w _ hl
    rw [hl] at h
    by_cases hz : st ≠ 0
    · simp only [hz, ne_eq, not_false_eq_true, if_true, Option.some.injEq, Prod.mk.injEq] at h
      rw [← h.2.1]
      exact hq.trans hu
    · simp only [hz, if_false, Option.some.injEq, Prod.mk.injEq] at h
      exact absurd h.1.symm hr

theorem setNewHwAddr_initialised (c : Consts) (s : AM4096) (w : World) (a : Nat) :
    (s.setNewHwAddr c w a).2.1._initialised = s._initialised := by
  rw [setNewHwAddr_eq]
  split
  · rfl
  · split <;> rfl

theorem run_keeps_flag (c : Consts) (op : Op) (s : AM4096) (w : World)
    (r : Int × AM4096 × World) (h : op.run c (s, w) = some r)
    (hi : s._initialised = true) : r.2.1._initialised = true := by
  cases op with
  | init fuel =>
    simp only [Op.run, init_of_initialised c fuel s w hi, Option.some.injEq] at h
    rw [← h]
    exact hi
  | setNewHwAddr a =>
    simp only [Op.run, Option.some.injEq] at h
    rw [← h, setNewHwAddr_initialised]
    exact hi
  | updateConfiguration conf p =>
    simp only [Op.run, Option.some.injEq] at h
    rw [← h]
    exact hi
  | getConfiguration =>
    simp only [Op.run, Option.some.injEq] at h
    rw [← h]
    exact hi
  | readOutputDataRegisters out =>
    simp only [Op.run, Option.some.injEq] at h
    rw [← h]
    exact hi
  | getDeviceId =>
    simp only [Op.run, Option.some.injEq] at h
    rw [← h]
    exact hi

theorem runOps_keeps_flag (c : Consts) (ops : List Op) :
    ∀ (s : AM4096) (w : World) (sw : AM4096 × World),
      runOps c ops (s, w) = some sw → s._initialised = true → sw.1._initialised = true := by
  induction ops with
  | nil =>
    intro s w sw h hi
    simp only [runOps, Option.some.injEq] at h
    rw [← h]
    exact hi
  | cons op ops ih =>
    intro s w sw h hi
    unfold runOps at h
    cases hr : op.run c (s, w) with
    | none => rw [hr] at h; simp at h
    | some r =>
      rw [hr] at h
      exact ih r.2.1 r.2.2 sw h (run_keeps_flag c op s w r hr hi)

/-- C18: the initialised flag is false after construction (with an all-zero
configuration and device id 0); for every sequence of public operations and
every transport behaviour, a flag that is true is still true afterwards; and an
operation that finds the flag false and leaves it true is an `init()` call that
returns 0. -/
theorem initialised_flag_monotone (c : Consts) (hw_addr : Nat) (ops : List Op) (op : Op)
    (s s2 : AM4096) (w w2 : World) (r : Int) :
    ((AM4096.new hw_addr)._initialised = false ∧
      (∀ i, (AM4096.new hw_addr)._configuration i = 0) ∧
      (AM4096.new hw_addr)._device_id = 0) ∧
    (s._initialised = true →
      ∀ sw, runOps c ops (s, w) = some sw → sw.1._initialised = true) ∧
    (s._initialised = false → op.run c (s, w) = some (r, s2, w2) → s2._initialised = true →
      (∃ fuel, op = Op.init fuel) ∧ r = 0) := by
  refine ⟨⟨rfl, fun _ => rfl, rfl⟩, ?_, ?_⟩
  · intro hi sw h
    exact runOps_keeps_flag c ops s w sw h hi
  · intro hu h ht
    cases op with
    | init fuel =>
      refine ⟨⟨fuel, rfl⟩, ?_⟩
      by_contra hr
      have := init_failure_keeps_flag c fuel s s2 w w2 r hu h hr
      rw [this] at ht
      exact absurd ht (by decide)
    | setNewHwAddr a =>
      simp only [Op.run, Option.some.injEq] at h
      have := setNewHwAddr_initialised c s w a
      rw [h] at this
      rw [hu] at this
      rw [this] at ht
      exact absurd ht (by decide)
    | updateConfiguration conf p =>
      simp only [Op.run, Option.some.injEq] at h
      have : s2._initialised = s._initialised := by rw [← (Prod.mk.inj (Prod.mk.inj h).2).1]
      rw [this, hu] at ht
      exact absurd ht (by decide)
    | getConfiguration =>
      simp only [Op.run, Option.some.injEq, Prod.mk.injEq] at h
      rw [← h.2.1, hu] at ht
      exact absurd ht (by decide)
    | readOutputDataRegisters out =>
      simp only [Op.run, Option.some.injEq, Prod.mk.injEq] at h
      rw [← h.2.1, hu] at ht
      exact absurd ht (by decide)
    | getDeviceId =>
      simp only [Op.run, Option.some.injEq, Prod.mk.injEq] at h
      rw [← h.2.1, hu] at ht
      exact absurd ht (by decide)

/-- Witness of C18: on the initialised handle, re-addressing to `0x80` (rejected),
a configuration update, an output read and `init()` on a failing transport
return and leave the flag true; a fresh handle is uninitialised. -/
theorem initialised_flag_monotone_witness :
    ((AM4096.new 0x50)._initialised = false ∧
      (∀ i, (AM4096.new 0x50)._configuration i = 0) ∧
      (AM4096.new 0x50)._device_id = 0) ∧
    (runOps sampleConsts
      [Op.setNewHwAddr 0x80, Op.updateConfiguration sampleConfig true,
        Op.readOutputDataRegisters (fun _ => 0), Op.init 0]
      (initialisedHandle, constWorld 1 0 0)).map (fun sw => sw.1._initialised) = some true ∧
    (∀ sw, runOps sampleConsts
      [Op.setNewHwAddr 0x80, Op.updateConfiguration sampleConfig true,
        Op.readOutputDataRegisters (fun _ => 0), Op.init 0]
      (initialisedHandle, constWorld 1 0 0) = some sw → sw.1._initialised = true) :=
  ⟨(initialised_flag_monotone sampleConsts 0x50 [] Op.getDeviceId initialisedHandle
      initialisedHandle (constWorld 1 0 0) (constWorld 1 0 0) 0).1,
   by decide,
   (initialised_flag_monotone sampleConsts 0x50
      [Op.setNewHwAddr 0x80, Op.updateConfiguration sampleConfig true,
        Op.readOutputDataRegisters (fun _ => 0), Op.init 0]
      Op.getDeviceId initialisedHandle initialisedHandle (constWorld 1 0 0)
      (constWorld 1 0 0) 0).2.1 rfl⟩

/-! ## Wire format -/

theorem and_ff_eq_mod (x : Nat) : x &&& 0xFF = x % 256 := by
  have e : (0xFF : Nat) = 2 ^ 8 - 1 := by decide
  rw [e, Nat.and_pow_two_sub_one_eq_mod]

theorem high_byte_eq (v : Nat) (hv : v < 65536) : (v >>> 8) &&& 0xFF = v >>> 8 := by
  rw [and_ff_eq_mod, Nat.shiftRight_eq_div_pow]
  apply Nat.mod_eq_of_lt
  omega

theorem compose_bytes_of (v : Nat) (hv : v < 65536) :
    compose ((v >>> 8) &&& 0xFF) (v &&& 0xFF) = v := by
  rw [high_byte_eq v hv, and_ff_eq_mod, Nat.shiftRight_eq_div_pow]
  rw [compose_eq _ _ (by omega) (by omega)]
  omega

/-- C19: for every 16-bit value `v` and every legal register address `a` (in
the EEPROM or the RAM configuration window), the 3-byte frame emitted by
`writeReg` is `[a, v >> 8, v & 0xFF]`, and `readReg`, receiving the two data
bytes of that frame in the same order, stores exactly `v`: the decoding of
`readReg` is a left inverse of the encoding of `writeReg`. -/
theorem writeReg_readReg_round_trip (c : Consts) (s s2 : AM4096) (w w2 : World)
    (a v addr2 : Nat) (hv : v < 65536) (ha : a < 256)
    (hin : (c.AM4096_EEPROM_CONFIG_DATA_ADDR ≤ a ∧
          a < c.AM4096_EEPROM_CONFIG_DATA_ADDR + c.AM4096_CONFIG_DATA_LEN) ∨
        (c.AM4096_REGISTER_CONFIG_DATA_ADDR ≤ a ∧
          a < c.AM4096_REGISTER_CONFIG_DATA_ADDR + c.AM4096_CONFIG_DATA_LEN))
    (hb0 : (w2.replies 1).byte0 = v >>> 8) (hb1 : (w2.replies 1).byte1 = v &&& 0xFF) :
    (s.writeReg c w a v).2.trace =
      w.trace ++ [Event.write (s._hw_addr <<< 1) [a, v >>> 8, v &&& 0xFF] false] ∧
    (s2.readReg w2 addr2).2.1 = v ∧
    compose (v >>> 8) (v &&& 0xFF) = v := by
  have hm : a % 256 = a := Nat.mod_eq_of_lt ha
  have hc := compose_bytes_of v hv
  rw [high_byte_eq v hv] at hc
  refine ⟨?_, ?_, hc⟩
  · rw [writeReg_eq, hm, if_pos (by omega), high_byte_eq v hv]
    rfl
  · rw [readReg_value, hb0, hb1]
    have h1 : (v >>> 8) % 256 = v >>> 8 := by
      rw [Nat.shiftRight_eq_div_pow]
      apply Nat.mod_eq_of_lt
      omega
    have h2 : (v &&& 0xFF) % 256 = v &&& 0xFF := by
      rw [and_ff_eq_mod]
      omega
    rw [h1, h2]
    exact hc

/-- Witness of C19: the value `0xBEEF` written to RAM register 49 travels as
`31 BE EF`, and these data bytes read back as `0xBEEF`. -/
theorem writeReg_readReg_round_trip_witness :
    ((AM4096.new 0x50).writeReg sampleConsts (constWorld 0 0 0) 49 0xBEEF).2.trace =
      (constWorld 0 0 0).trace ++ [Event.write ((AM4096.new 0x50)._hw_addr <<< 1)
        [49, 0xBEEF >>> 8, 0xBEEF &&& 0xFF] false] ∧
    ((AM4096.new 0x50).readReg (constWorld 0 0xBE 0xEF) 49).2.1 = 0xBEEF ∧
    compose (0xBEEF >>> 8) (0xBEEF &&& 0xFF) = 0xBEEF :=
  writeReg_readReg_round_trip sampleConsts (AM4096.new 0x50) (AM4096.new 0x50)
    (constWorld 0 0 0) (constWorld 0 0xBE 0xEF) 49 0xBEEF 49 (by decide) (by decide)
    (Or.inr (by decide)) (by decide) (by decide)

/-! ## Window check on the driver's own writes -/

/-- C20 as stated fails for `setNewHwAddr`: on the initialised handle the request
`0x80` returns 1 although no transport call is made (the transport would have
succeeded): the status is the rejection by the guard of `setNewHwAddr`, not a
transport outcome. -/
theorem setNewHwAddr_guard_status_counterexample :
    (initialisedHandle.setNewHwAddr sampleConsts (constWorld 0 0 0) 0x80).1 = 1 ∧
    (initialisedHandle.setNewHwAddr sampleConsts (constWorld 0 0 0) 0x80).2.2.trace = [] ∧
    ((constWorld 0 0 0).replies 0).status = 0 := by
  decide

/-- C20, amended: the register addresses the driver uses for its own writes
pass the window check of `writeReg`, which then performs the bus write:
`AM4096_REGISTER_CONFIG_DATA_ADDR + i` for every `i < AM4096_CONFIG_DATA_LEN`
(the base being an 8-bit address), `AM4096_EEPROM_CONFIG_DATA_ADDR + 1` (given at
least two configuration words) and `AM4096_EEPROM_CONFIG_DATA_ADDR` (given at
least one).  Hence the status of `updateConfiguration` is the sum of the
transport statuses of its writes, and the status of `setNewHwAddr`, whenever the
call passes its own guard, is 0 or 1 according to the transport status of its
write; the guard of `setNewHwAddr` itself still returns 1 without a transport
call. -/
theorem driver_writes_pass_window_check (c : Consts) (s : AM4096) (w : World)
    (reg a : Nat) (conf : Nat → Nat) :
    (c.AM4096_REGISTER_CONFIG_DATA_ADDR < 256 → ∀ i, i < c.AM4096_CONFIG_DATA_LEN →
      s.writeReg c w (c.AM4096_REGISTER_CONFIG_DATA_ADDR + i) reg =
        w.write (s._hw_addr <<< 1)
          [(c.AM4096_REGISTER_CONFIG_DATA_ADDR + i) % 256, (reg >>> 8) &&& 0xFF, reg &&& 0xFF]
          false) ∧
    (2 ≤ c.AM4096_CONFIG_DATA_LEN →
      s.writeReg c w (c.AM4096_EEPROM_CONFIG_DATA_ADDR + 1) reg =
        w.write (s._hw_addr <<< 1)
          [(c.AM4096_EEPROM_CONFIG_DATA_ADDR + 1) % 256, (reg >>> 8) &&& 0xFF, reg &&& 0xFF]
          false) ∧
    (1 ≤ c.AM4096_CONFIG_DATA_LEN →
      s.writeReg c w c.AM4096_EEPROM_CONFIG_DATA_ADDR reg =
        w.write (s._hw_addr <<< 1)
          [c.AM4096_EEPROM_CONFIG_DATA_ADDR % 256, (reg >>> 8) &&& 0xFF, reg &&& 0xFF] false) ∧
    (c.AM4096_REGISTER_CONFIG_DATA_ADDR < 256 →
      (s.updateConfiguration c w conf false).1 = statusSum w c.AM4096_CONFIG_DATA_LEN) ∧
    (2 ≤ c.AM4096_CONFIG_DATA_LEN →
      (s.updateConfiguration c w conf true).1 = statusSum w c.AM4096_CONFIG_DATA_LEN) ∧
    (1 ≤ c.AM4096_CONFIG_DATA_LEN → a < 256 → ¬ (a > 0x7F ∧ s._initialised = true) →
      (s.setNewHwAddr c w a).1 = if (w.replies 0).status ≠ 0 then 1 else 0) ∧
    (a < 256 → a > 0x7F → s._initialised = true → s.setNewHwAddr c w a = (1, s, w)) := by
  refine ⟨?_, ?_, ?_, ?_, ?_, ?_, ?_⟩
  · intro hR i hi
    exact writeReg_of_passes c s w _ reg (passes_ram c i hR hi)
  · intro hN
    exact writeReg_of_passes c s w _ reg (passes_eeprom_succ c hN)
  · intro hN
    exact writeReg_of_passes c s w _ reg (passes_eeprom_base c hN)
  · intro hR
    have h := (updateStep_fold_status c { s with _configuration := conf } false
      c.AM4096_CONFIG_DATA_LEN
      (fun i hi => by simpa using passes_ram c i hR hi) (0, w)).1
    unfold AM4096.updateConfiguration
    simpa using h
  · intro hN
    have h := (updateStep_fold_status c { s with _configuration := conf } true
      c.AM4096_CONFIG_DATA_LEN
      (fun i _ => by simpa using passes_eeprom_succ c hN) (0, w)).1
    unfold AM4096.updateConfiguration
    simpa using h
  · intro hN ha hg
    have hm : a % 256 = a := Nat.mod_eq_of_lt ha
    rw [setNewHwAddr_eq, hm, if_neg hg,
      writeReg_of_passes c s w _ _ (passes_eeprom_base c hN)]
    by_cases hst : (w.replies 0).status ≠ 0
    · simp [World.write, hst]
    · simp [World.write, hst]
  · intro ha hgt hi
    have hm : a % 256 = a := Nat.mod_eq_of_lt ha
    rw [setNewHwAddr_eq, hm, if_pos ⟨hgt, hi⟩]

/-- Witness of C20 (amended) on the sample register map. -/
theorem driver_writes_pass_window_check_witness :
    ((AM4096.new 0x50).updateConfiguration sampleConsts (constWorld 1 0 0) sampleConfig false).1 =
      statusSum (constWorld 1 0 0) sampleConsts.AM4096_CONFIG_DATA_LEN ∧
    ((AM4096.new 0x50).updateConfiguration sampleConsts (constWorld 1 0 0) sampleConfig true).1 =
      statusSum (constWorld 1 0 0) sampleConsts.AM4096_CONFIG_DATA_LEN ∧
    ((AM4096.new 0x50).setNewHwAddr sampleConsts (constWorld 1 0 0) 0x51).1 =
      if ((constWorld 1 0 0).replies 0).status ≠ 0 then 1 else 0 :=
  ⟨(driver_writes_pass_window_check sampleConsts (AM4096.new 0x50) (constWorld 1 0 0) 0 0x51
      sampleConfig).2.2.2.1 (by decide),
   (driver_writes_pass_window_check sampleConsts (AM4096.new 0x50) (constWorld 1 0 0) 0 0x51
      sampleConfig).2.2.2.2.1 (by decide),
   (driver_writes_pass_window_check sampleConsts (AM4096.new 0x50) (constWorld 1 0 0) 0 0x51
      sampleConfig).2.2.2.2.2.1 (by decide) (by decide) (by decide)⟩
